import Mathlib

/-! TaskBuilder: time conversion, the Task record and its staged builder.

Shallow embedding of `src/main.cpp`.

Conventions of the embedding

* `int` is a 32-bit and `time_t` a 64-bit signed integer; both are `Int` here, with an
  explicit wrap where the source stores into the narrower type.
* `Clock` is `std::chrono::high_resolution_clock`. The source calls `Clock::from_time_t` and
  passes `time_point<Clock>` to `system_clock::to_time_t`, which only type-checks where
  `high_resolution_clock` is an alias of `system_clock` (libstdc++), whose tick is one
  nanosecond held in a signed 64-bit count. A `TimePoint` is that tick count.
* The local timezone is one fixed offset from UTC (no daylight-saving rule), carried in `Env`.
* `Seconds` is `duration<long double>`. The constants the unit setters write are integer
  products far below 2^53, which the floating type holds exactly. Values are modelled by exact
  rationals, so the rounding of a product that the floating type cannot hold, infinities and
  NaN are outside the model.
* The builder classes are views over one in-progress `Task` (they hold a `Task&`), so every
  setter is a function `Task → Task` and every stage selector returns the same `Task`.
* Inserting a `long double` into a stream with default flags is the `%Lg` conversion at
  precision 6, here applied to the exact value.
-/

namespace TaskBuilder

/-! ## Machine integers -/

/-- Value of a mathematical integer after being stored in a signed 32-bit `int`. -/
def wrap32 (x : Int) : Int := (x + 2147483648) % 4294967296 - 2147483648

/-- Value of a mathematical integer after being stored in a signed 64-bit integer. -/
def wrap64 (x : Int) : Int :=
  (x + 9223372036854775808) % 18446744073709551616 - 9223372036854775808

/-! ## Instants -/

/-- A `TimePoint` is the signed count of nanosecond ticks since the epoch. -/
abbrev TimePoint := Int

/-- Least tick count a `TimePoint` can hold. -/
def TICKS_MIN : Int := -9223372036854775808

/-- Greatest tick count a `TimePoint` can hold. -/
def TICKS_MAX : Int := 9223372036854775807

/-- Conversion `Clock::from_time_t`: seconds are scaled to nanosecond ticks in 64 bits. -/
def Clock.from_time_t (t : Int) : TimePoint := wrap64 (t * 1000000000)

/-- Conversion `system_clock::to_time_t`: `duration_cast` to seconds truncates toward zero. -/
def Clock.to_time_t (tp : TimePoint) : Int := Int.tdiv tp 1000000000

/-! ## Broken-down time (`struct tm`) and the C library calls used by `Tools` -/

/-- The fields of `struct tm` that `mktime` reads and the format string prints. -/
structure Tm where
  tm_sec : Int
  tm_min : Int
  tm_hour : Int
  tm_mday : Int
  tm_mon : Int
  tm_year : Int
deriving DecidableEq

/-- Days from 1970-01-01 to the proleptic Gregorian date `y-m-d` (`1 ≤ m ≤ 12`). -/
def days_from_civil (y m d : Int) : Int :=
  let y1 := if m ≤ 2 then y - 1 else y
  let era := y1 / 400
  let yoe := y1 % 400
  let mp := (m + 9) % 12
  let doy := (153 * mp + 2) / 5 + d - 1
  let doe := yoe * 365 + yoe / 4 - yoe / 100 + doy
  era * 146097 + doe - 719468

/-- Proleptic Gregorian date `(year, month, day)` of day number `z` counted from 1970-01-01. -/
def civil_from_days (z : Int) : Int × Int × Int :=
  let z1 := z + 719468
  let era := z1 / 146097
  let doe := z1 % 146097
  let yoe := (doe - doe / 1460 + doe / 36524 - doe / 146096) / 365
  let doy := doe - (365 * yoe + yoe / 4 - yoe / 100)
  let mp := (5 * doy + 2) / 153
  let d := doy - (153 * mp + 2) / 5 + 1
  let m := if mp < 10 then mp + 3 else mp - 9
  let y := yoe + era * 400
  (if m ≤ 2 then y + 1 else y, m, d)

/-- Library call `mktime` for a zone at a fixed offset `tz` seconds east of UTC: the fields are
taken as local time, out-of-range fields are carried over, the result is seconds since the
epoch. -/
def mktime (tz : Int) (t : Tm) : Int :=
  let year := t.tm_year + 1900 + t.tm_mon / 12
  let mon := t.tm_mon % 12
  (days_from_civil year (mon + 1) 1 + (t.tm_mday - 1)) * 86400
    + t.tm_hour * 3600 + t.tm_min * 60 + t.tm_sec - tz

/-- Library call `localtime` for a zone at a fixed offset `tz` seconds east of UTC. -/
def localtime (tz : Int) (t : Int) : Tm :=
  let u := t + tz
  let days := u / 86400
  let rem := u % 86400
  let ymd := civil_from_days days
  { tm_sec := rem % 60
    tm_min := rem / 60 % 60
    tm_hour := rem / 3600
    tm_mday := ymd.2.2
    tm_mon := ymd.2.1 - 1
    tm_year := ymd.1 - 1900 }

/-! ### Output conversions of `strftime` -/

/-- The decimal digit character of `n % 10`. -/
def digitChar (n : Nat) : Char := Char.ofNat (48 + n % 10)

/-- Decimal digits of `n`, most significant first, using at most `fuel + 1` digits. -/
def decimalAux : Nat → Nat → List Char
  | 0, n => [digitChar n]
  | fuel + 1, n => if n < 10 then [digitChar n] else decimalAux fuel (n / 10) ++ [digitChar n]

/-- Decimal digits of `n`, most significant first (20 digits cover every 64-bit value). -/
def decimal (n : Nat) : List Char := decimalAux 19 n

/-- A numeric conversion of `strftime`: decimal, zero-padded to `width` digits, with a leading
minus sign for a negative value. -/
def fmtInt (width : Nat) (v : Int) : List Char :=
  let ds := decimal v.natAbs
  let padded := List.replicate (width - ds.length) '0' ++ ds
  if v < 0 then '-' :: padded else padded

/-- The text that the format `"%d/%m/%Y %H:%M:%S"` produces for `t`: day, month, hour, minute
and second as two digits, the year `tm_year + 1900` in plain decimal. -/
def formatted (t : Tm) : List Char :=
  fmtInt 2 t.tm_mday ++ '/' :: fmtInt 2 (t.tm_mon + 1) ++ '/' :: fmtInt 1 (t.tm_year + 1900)
    ++ ' ' :: fmtInt 2 t.tm_hour ++ ':' :: fmtInt 2 t.tm_min ++ ':' :: fmtInt 2 t.tm_sec

/-- Library call `strftime(buf, buf.size, "%d/%m/%Y %H:%M:%S", t)`, returning the array
afterwards. When the text and its terminating NUL fit, they are written at the front and the
rest of the array is untouched; otherwise C leaves the contents indeterminate and the model
leaves the array as it was. -/
def strftime (buf : List Char) (t : Tm) : List Char :=
  let out := formatted t
  if out.length < buf.length then out ++ '\x00' :: buf.drop (out.length + 1) else buf

/-! ### Input conversions of `sscanf` -/

/-- Predicate `isspace` of the C locale. -/
def isspace (c : Char) : Bool :=
  c == ' ' || c == '\t' || c == '\n' || c == '\x0b' || c == '\x0c' || c == '\r'

/-- Consume a run of decimal digits, accumulating their value onto `acc`. -/
def scanDigits : List Char → Nat → Nat × List Char
  | [], acc => (acc, [])
  | c :: cs, acc =>
    if c.isDigit then scanDigits cs (acc * 10 + (c.toNat - 48)) else (acc, c :: cs)

/-- The `%d` conversion: skip white space, read an optional sign and at least one digit, store
the value in an `int`. Gives the value and the unread input, or `none` on a matching failure. -/
def scanInt (s : List Char) : Option (Int × List Char) :=
  let s1 := s.dropWhile isspace
  let signed : Bool × List Char :=
    match s1 with
    | '-' :: r => (true, r)
    | '+' :: r => (false, r)
    | _ => (false, s1)
  match signed.2 with
  | [] => none
  | c :: _ =>
    if c.isDigit then
      let r := scanDigits signed.2 0
      some (wrap32 (if signed.1 then -(r.1 : Int) else (r.1 : Int)), r.2)
    else none

/-- An ordinary character of the format: the next input character must be that character. -/
def expect (c : Char) : List Char → Option (List Char)
  | [] => none
  | x :: r => if x = c then some r else none

/-- The six `int` locals `dd, mm, yyyy, hh24, mi, ss` of `string_to_time_point`. -/
structure ScanVars where
  dd : Int
  mm : Int
  yyyy : Int
  hh24 : Int
  mi : Int
  ss : Int
deriving DecidableEq

/-- Library call `sscanf(s, "%d/%d/%d %d:%d:%d", &dd, &mm, &yyyy, &hh24, &mi, &ss)`: the
conversions are stored left to right until the first matching failure; `v` holds the values
the locals had before the call and every variable not reached keeps its value. The blank in
the format matches any run of white space, which the following `%d` skips as well. -/
def sscanf (v : ScanVars) (s : List Char) : ScanVars :=
  match scanInt s with
  | none => v
  | some (a1, s1) =>
  let v1 := { v with dd := a1 }
  match (expect '/' s1).bind scanInt with
  | none => v1
  | some (a2, s2) =>
  let v2 := { v1 with mm := a2 }
  match (expect '/' s2).bind scanInt with
  | none => v2
  | some (a3, s3) =>
  let v3 := { v2 with yyyy := a3 }
  match scanInt (s3.dropWhile isspace) with
  | none => v3
  | some (a4, s4) =>
  let v4 := { v3 with hh24 := a4 }
  match (expect ':' s4).bind scanInt with
  | none => v4
  | some (a5, s5) =>
  let v5 := { v4 with mi := a5 }
  match (expect ':' s5).bind scanInt with
  | none => v5
  | some (a6, _) => { v5 with ss := a6 }

/-- The characters `c_str()` exposes: those before the first NUL. -/
def c_str (s : String) : List Char := s.data.takeWhile (fun c => c != '\x00')

/-! ## `Tools` -/

/-- What the process supplies to `Tools`: the fixed local zone and the indeterminate values
that the six uninitialised locals of `string_to_time_point` hold before `sscanf` runs. -/
structure Env where
  tz : Int
  uninit : ScanVars

/-- Source function `Tools::time_point_to_string`: a 20-character string of NULs is handed to
`strftime` as the output array and returned whole. -/
def Tools.time_point_to_string (env : Env) (tp : TimePoint) : String :=
  String.mk (strftime (List.replicate 20 '\x00') (localtime env.tz (Clock.to_time_t tp)))

/-- Source function `Tools::string_to_time_point`. -/
def Tools.string_to_time_point (env : Env) (date : String) : TimePoint :=
  let v := sscanf env.uninit (c_str date)
  let tm : Tm :=
    { tm_year := wrap32 (v.yyyy - 1900)
      tm_mon := wrap32 (v.mm - 1)
      tm_mday := v.dd
      tm_hour := v.hh24
      tm_min := v.mi
      tm_sec := v.ss }
  Clock.from_time_t (mktime env.tz tm)

/-! ## The `Task` record -/

/-- Type `Seconds`, a `duration<long double>`, as an exact number of seconds. -/
abbrev Seconds := ℚ

/-- The record `Task` with its default member initialisers. -/
structure Task where
  name : String := ""
  action : String := ""
  period : Seconds := 0
  last_run : TimePoint := Clock.from_time_t 0
  next_run : TimePoint := Clock.from_time_t 0
deriving DecidableEq

/-- The epoch instant `Clock::from_time_t(0)`. -/
def epoch : TimePoint := Clock.from_time_t 0

/-! ## The staged builder

Every builder class holds a reference to the one in-progress `Task`; a call is modelled by
its effect on that `Task`. -/

/-- Source function `Task::create`: a `TaskBuilder` whose member `t` is default-constructed. -/
def Task.create : Task := {}

/-- Conversion `TaskBuilderBase::operator Task`: the in-progress value is moved out. -/
def TaskBuilderBase.toTask (task : Task) : Task := task

/-- Stage selector `TaskBuilderBase::with`: a `TaskWithBuilder` over the same `Task`. -/
def TaskBuilderBase.with_ (task : Task) : Task := task

/-- Stage selector `TaskBuilderBase::doing`: a `TaskDoingBuilder` over the same `Task`. -/
def TaskBuilderBase.doing (task : Task) : Task := task

/-- Stage selector `TaskBuilderBase::runs`: a `TaskRunsBuilder` over the same `Task`. -/
def TaskBuilderBase.runs (task : Task) : Task := task

/-- Stage selector `TaskBuilderBase::begins`: a `TaskBeginsBuilder` over the same `Task`. -/
def TaskBuilderBase.begins (task : Task) : Task := task

/-- Setter `TaskWithBuilder::name`. -/
def TaskWithBuilder.name (name : String) (task : Task) : Task := { task with name := name }

/-- Setter `TaskDoingBuilder::action`. -/
def TaskDoingBuilder.action (action : String) (task : Task) : Task :=
  { task with action := action }

namespace TaskRunsBuilder

/-- Setter `once`: `task.period = (Seconds)0`. -/
def once (task : Task) : Task := { task with period := 0 }

/-- Setter `every`: `task.period = (Seconds)period`. -/
def every (period : Seconds) (task : Task) : Task := { task with period := period }

/-- Setter `second`: `task.period = (Seconds)1.0`. -/
def second (task : Task) : Task := { task with period := 1 }

/-- Setter `seconds`: `task.period *= 1.0`. -/
def seconds (task : Task) : Task := { task with period := task.period * 1 }

/-- Setter `minute`: `task.period = (Seconds)60.0`. -/
def minute (task : Task) : Task := { task with period := 60 }

/-- Setter `minutes`: `task.period *= 60.0`. -/
def minutes (task : Task) : Task := { task with period := task.period * 60 }

/-- Setter `hour`: `task.period = (Seconds)(60.0*60.0)`. -/
def hour (task : Task) : Task := { task with period := 60 * 60 }

/-- Setter `hours`: `task.period *= (60.0*60.0)`. -/
def hours (task : Task) : Task := { task with period := task.period * (60 * 60) }

/-- Setter `day`: `task.period = (Seconds)(60.0*60.0*24.0)`. -/
def day (task : Task) : Task := { task with period := 60 * 60 * 24 }

/-- Setter `days`: `task.period *= (60.0*60.0*24.0)`. -/
def days (task : Task) : Task := { task with period := task.period * (60 * 60 * 24) }

/-- Setter `week`: `task.period = (Seconds)(60.0*60.0*24.0*7.0)`. -/
def week (task : Task) : Task := { task with period := 60 * 60 * 24 * 7 }

/-- Setter `weeks`: `task.period *= (60.0*60.0*24.0*7.0)`. -/
def weeks (task : Task) : Task := { task with period := task.period * (60 * 60 * 24 * 7) }

/-- Setter `month`: `task.period = (Seconds)(60.0*60.0*24.0*7.0*30.0)`. -/
def month (task : Task) : Task := { task with period := 60 * 60 * 24 * 7 * 30 }

/-- Setter `months`: `task.period *= (60.0*60.0*24.0*7.0*30.0)`. -/
def months (task : Task) : Task :=
  { task with period := task.period * (60 * 60 * 24 * 7 * 30) }

/-- Setter `year`: `task.period = (Seconds)(60.0*60.0*24.0*7.0*30.0*365.0)`. -/
def year (task : Task) : Task := { task with period := 60 * 60 * 24 * 7 * 30 * 365 }

/-- Setter `years`: `task.period *= (60.0*60.0*24.0*7.0*30.0*365.0)`. -/
def years (task : Task) : Task :=
  { task with period := task.period * (60 * 60 * 24 * 7 * 30 * 365) }

end TaskRunsBuilder

/-- Setter `TaskBeginsBuilder::on`: `task.next_run = Tools::string_to_time_point(date)`. -/
def TaskBeginsBuilder.on (env : Env) (date : String) (task : Task) : Task :=
  { task with next_run := Tools.string_to_time_point env date }

/-! ### Chains of builder calls -/

/-- The static type of the handle a chain has reached, i.e. which builder class it is. -/
inductive Handle where
  | taskBuilder
  | taskWithBuilder
  | taskDoingBuilder
  | taskRunsBuilder
  | taskBeginsBuilder
deriving DecidableEq

/-- One member call in a chain that starts at `Task::create()`. -/
inductive Call where
  | with_
  | doing
  | runs
  | begins
  | name (s : String)
  | action (s : String)
  | once
  | every (n : Seconds)
  | second
  | seconds
  | minute
  | minutes
  | hour
  | hours
  | day
  | days
  | week
  | weeks
  | month
  | months
  | year
  | years
  | on (date : String)
deriving DecidableEq

/-- Whether the call is one of the setters declared in `TaskRunsBuilder`. -/
def Call.isRunsSetter : Call → Bool
  | .once | .every _ | .second | .seconds | .minute | .minutes | .hour | .hours
  | .day | .days | .week | .weeks | .month | .months | .year | .years => true
  | _ => false

/-- Member lookup: the handle type a call returns when made on a handle of type `h`, or `none`
when that class has no such member. The four selectors come from `TaskBuilderBase` and exist on
every handle; each setter exists on its own class only and returns `self&`. -/
def Call.returns (h : Handle) : Call → Option Handle
  | .with_ => some .taskWithBuilder
  | .doing => some .taskDoingBuilder
  | .runs => some .taskRunsBuilder
  | .begins => some .taskBeginsBuilder
  | .name _ => if h = .taskWithBuilder then some h else none
  | .action _ => if h = .taskDoingBuilder then some h else none
  | .on _ => if h = .taskBeginsBuilder then some h else none
  | _ => if h = .taskRunsBuilder then some h else none

/-- The handle type at the end of a chain of calls made on a handle of type `h`, or `none` when
some call of the chain does not compile. -/
def chainReturns : Handle → List Call → Option Handle
  | h, [] => some h
  | h, c :: cs =>
    match c.returns h with
    | none => none
    | some h1 => chainReturns h1 cs

/-- The effect of one call on the in-progress `Task`. -/
def Call.apply (env : Env) : Call → Task → Task
  | .with_ => TaskBuilderBase.with_
  | .doing => TaskBuilderBase.doing
  | .runs => TaskBuilderBase.runs
  | .begins => TaskBuilderBase.begins
  | .name s => TaskWithBuilder.name s
  | .action s => TaskDoingBuilder.action s
  | .once => TaskRunsBuilder.once
  | .every n => TaskRunsBuilder.every n
  | .second => TaskRunsBuilder.second
  | .seconds => TaskRunsBuilder.seconds
  | .minute => TaskRunsBuilder.minute
  | .minutes => TaskRunsBuilder.minutes
  | .hour => TaskRunsBuilder.hour
  | .hours => TaskRunsBuilder.hours
  | .day => TaskRunsBuilder.day
  | .days => TaskRunsBuilder.days
  | .week => TaskRunsBuilder.week
  | .weeks => TaskRunsBuilder.weeks
  | .month => TaskRunsBuilder.month
  | .months => TaskRunsBuilder.months
  | .year => TaskRunsBuilder.year
  | .years => TaskRunsBuilder.years
  | .on date => TaskBeginsBuilder.on env date

/-- The in-progress `Task` after the calls of a chain have run, first call first. -/
def runChain (env : Env) : List Call → Task → Task
  | [], task => task
  | c :: cs, task => runChain env cs (c.apply env task)

/-- The `Task` that `Task t = Task::create(). ... ;` yields for a chain of calls. -/
def build (env : Env) (calls : List Call) : Task :=
  TaskBuilderBase.toTask (runChain env calls Task.create)

/-! ## Well-formed timestamps -/

/-- Value of a decimal digit character. -/
def digitVal (c : Char) : Int := (c.toNat : Int) - 48

/-- Number of days of month `m` in year `y` of the Gregorian calendar. -/
def daysInMonth (y m : Int) : Int :=
  if m = 2 then
    if y % 4 = 0 ∧ (y % 100 ≠ 0 ∨ y % 400 = 0) then 29 else 28
  else if m = 4 ∨ m = 6 ∨ m = 9 ∨ m = 11 then 30
  else 31

/-- The numeric fields a text of the shape `DD/MM/YYYY HH:MM:SS` spells, or `none` when the
text does not have that shape (19 characters, digits and separators in place). -/
def timestampFields (s : String) : Option ScanVars :=
  match s.data with
  | [d1, d2, p1, m1, m2, p2, y1, y2, y3, y4, p3, h1, h2, p4, n1, n2, p5, s1, s2] =>
    if p1 = '/' ∧ p2 = '/' ∧ p3 = ' ' ∧ p4 = ':' ∧ p5 = ':'
        ∧ d1.isDigit ∧ d2.isDigit ∧ m1.isDigit ∧ m2.isDigit
        ∧ y1.isDigit ∧ y2.isDigit ∧ y3.isDigit ∧ y4.isDigit
        ∧ h1.isDigit ∧ h2.isDigit ∧ n1.isDigit ∧ n2.isDigit ∧ s1.isDigit ∧ s2.isDigit then
      some
        { dd := 10 * digitVal d1 + digitVal d2
          mm := 10 * digitVal m1 + digitVal m2
          yyyy := 1000 * digitVal y1 + 100 * digitVal y2 + 10 * digitVal y3 + digitVal y4
          hh24 := 10 * digitVal h1 + digitVal h2
          mi := 10 * digitVal n1 + digitVal n2
          ss := 10 * digitVal s1 + digitVal s2 }
    else none
  | _ => none

/-- A calendar date and time of day: month 1 to 12, day within the month, hour 0 to 23, minute
and second 0 to 59. -/
def ScanVars.isDateTime (v : ScanVars) : Prop :=
  1 ≤ v.mm ∧ v.mm ≤ 12 ∧ 1 ≤ v.dd ∧ v.dd ≤ daysInMonth v.yyyy v.mm
    ∧ 0 ≤ v.hh24 ∧ v.hh24 ≤ 23 ∧ 0 ≤ v.mi ∧ v.mi ≤ 59 ∧ 0 ≤ v.ss ∧ v.ss ≤ 59

instance (v : ScanVars) : Decidable v.isDateTime := by
  unfold ScanVars.isDateTime; infer_instance

/-- A valid timestamp: a text of the shape `DD/MM/YYYY HH:MM:SS` that spells a calendar date
and a time of day. -/
def validTimestamp (s : String) : Prop :=
  match timestampFields s with
  | some v => v.isDateTime
  | none => False

instance (s : String) : Decidable (validTimestamp s) := by
  unfold validTimestamp; split <;> infer_instance

/-- The year a text of the shape `DD/MM/YYYY HH:MM:SS` spells (0 for any other text). -/
def timestampYear (s : String) : Int :=
  match timestampFields s with
  | some v => v.yyyy
  | none => 0

/-- The text `DD/MM/YYYY HH:MM:SS` that spells the fields `v`, each number zero-padded to its
width (two digits, four for the year). -/
def renderFields (v : ScanVars) : List Char :=
  [digitChar (v.dd.toNat / 10), digitChar v.dd.toNat, '/',
    digitChar (v.mm.toNat / 10), digitChar v.mm.toNat, '/',
    digitChar (v.yyyy.toNat / 1000), digitChar (v.yyyy.toNat / 100),
    digitChar (v.yyyy.toNat / 10), digitChar v.yyyy.toNat, ' ',
    digitChar (v.hh24.toNat / 10), digitChar v.hh24.toNat, ':',
    digitChar (v.mi.toNat / 10), digitChar v.mi.toNat, ':',
    digitChar (v.ss.toNat / 10), digitChar v.ss.toNat]

/-- A process in the UTC zone whose uninitialised locals happen to hold zero. -/
def Env.utc : Env := ⟨0, ⟨0, 0, 0, 0, 0, 0⟩⟩

/-! ## Classification of the builder calls -/

/-- The builder class that declares a setter, i.e. its stage; `none` for the four stage
selectors, which `TaskBuilderBase` declares for every handle. -/
def Call.declaredIn : Call → Option Handle
  | .with_ | .doing | .runs | .begins => none
  | .name _ => some .taskWithBuilder
  | .action _ => some .taskDoingBuilder
  | .on _ => some .taskBeginsBuilder
  | _ => some .taskRunsBuilder

/-! ## The examples of `main` -/

/-- The chain of the first example of `main`, for name `a`, action `b` and timestamp `s`:
`Task::create().with().name(a).doing().action(b).runs().every(1).week().begins().on(s)`. -/
def firstExample (env : Env) (a b s : String) : Task :=
  TaskBuilderBase.toTask
    (TaskBeginsBuilder.on env s (TaskBuilderBase.begins
      (TaskRunsBuilder.week (TaskRunsBuilder.every 1 (TaskBuilderBase.runs
        (TaskDoingBuilder.action b (TaskBuilderBase.doing
          (TaskWithBuilder.name a (TaskBuilderBase.with_ Task.create)))))))))

/-- The chain of the second example of `main`, for timestamp `s`:
`Task::create().runs().once().begins().on(s)`. -/
def secondExample (env : Env) (s : String) : Task :=
  TaskBuilderBase.toTask
    (TaskBeginsBuilder.on env s (TaskBuilderBase.begins
      (TaskRunsBuilder.once (TaskBuilderBase.runs Task.create))))

/-- The local `t1` of `main`. -/
def t1 (env : Env) : Task := firstExample env "Task1" "Run antivirus" "12/01/2020 06:00:01"

/-- The local `t2` of `main`. -/
def t2 (env : Env) : Task := secondExample env "12/01/2019 06:00:01"

/-! ## Stream output -/

/-- The greatest `k`, at most `fuel`, with `b * 10 ^ k ≤ a`. -/
def expUp : Nat → Nat → Nat → Nat
  | 0, _, _ => 0
  | fuel + 1, a, b => if b * 10 ≤ a then expUp fuel a (b * 10) + 1 else 0

/-- The least `k`, at most `fuel`, with `b ≤ a * 10 ^ k`. -/
def expDown : Nat → Nat → Nat → Nat
  | 0, _, _ => 0
  | fuel + 1, a, b => if a < b then expDown fuel (a * 10) b + 1 else 0

/-- The decimal exponent of the positive fraction `a / b`: the `x` with
`10 ^ x ≤ a / b < 10 ^ (x + 1)`. The fuel covers every finite `long double`, whose decimal
exponent lies between -4951 and 4932. -/
def decimalExponent (a b : Nat) : Int :=
  if b ≤ a then (expUp 5000 a b : Int) else -(expDown 5000 a b : Int)

/-- The fraction `a / b` rounded to the nearest integer, ties to even. -/
def roundHalfEven (a b : Nat) : Nat :=
  if b < 2 * (a % b) ∨ (2 * (a % b) = b ∧ a / b % 2 = 1) then a / b + 1 else a / b

/-- The fraction `a / b` scaled to six digits in front of the decimal point, given its decimal
exponent `x`, and rounded. -/
def sixDigits (a b : Nat) (x : Int) : Nat :=
  if x ≤ 5 then roundHalfEven (a * 10 ^ (5 - x).toNat) b
  else roundHalfEven a (b * 10 ^ (x - 5).toNat)

/-- An integer part followed by a fraction, with the trailing zeros of the fraction removed and
the decimal point removed when no fraction remains. -/
def withFraction (int frac : List Char) : List Char :=
  let f := (frac.reverse.dropWhile (fun c => c == '0')).reverse
  if f.isEmpty then int else int ++ '.' :: f

/-- Insertion `os << x` of a `long double` into a stream with default flags: the `%Lg`
conversion with precision 6. Six significant digits, in fixed style when the decimal exponent
is from -4 to 5 and in exponent style otherwise. -/
def showLongDouble (v : Seconds) : List Char :=
  if v.num = 0 then ['0']
  else
    let a := v.num.natAbs
    let b := v.den
    let x0 := decimalExponent a b
    let m0 := sixDigits a b x0
    let x := if m0 = 1000000 then x0 + 1 else x0
    let m := if m0 = 1000000 then 100000 else m0
    let ds := decimal m
    let body :=
      if -4 ≤ x ∧ x < 6 then
        if 0 ≤ x then withFraction (ds.take (x.toNat + 1)) (ds.drop (x.toNat + 1))
        else withFraction ['0'] (List.replicate (-x - 1).toNat '0' ++ ds)
      else
        withFraction (ds.take 1) (ds.drop 1)
          ++ 'e' :: (if x < 0 then '-' else '+') :: fmtInt 2 x.natAbs
    if v.num < 0 then '-' :: body else body

/-- Source function `operator<<(ostream&, const Task&)`: the characters it writes. -/
def printTask (env : Env) (task : Task) : String :=
  "name: " ++ task.name
    ++ ", action: " ++ task.action
    ++ ", period: " ++ String.mk (showLongDouble task.period) ++ " seconds"
    ++ ", last_run: " ++ Tools.time_point_to_string env task.last_run
    ++ ", next_run: " ++ Tools.time_point_to_string env task.next_run

/-! ## Calendar arithmetic -/

/-- Year of era from day of era, on the decomposition of the day of era into centuries `c`,
four-year groups `q`, years `s` and day of year `doy`. -/
theorem yoe_of_doe_parts (c s q doy : Int) (hc0 : 0 ≤ c) (hc1 : c ≤ 3) (hs0 : 0 ≤ s)
    (hs1 : s ≤ 3) (hq0 : 0 ≤ q) (hq1 : q ≤ 24) (h2 : 0 ≤ doy) (h3 : doy ≤ 365)
    (h4 : doy = 365 → s = 3 ∧ (q ≠ 24 ∨ c = 3)) (doe : Int)
    (hdoe : doe = 36524 * c + 1461 * q + 365 * s + doy) :
    (doe - doe / 1460 + doe / 36524 - doe / 146096) / 365 = 100 * c + 4 * q + s := by
  by_cases hlast : doe = 146096
  · have h1 : c = 3 := by omega
    have h2 : q = 24 := by omega
    have h3 : s = 3 := by omega
    rw [hlast, h1, h2, h3]
    decide
  · have e1 : doe / 146096 = 0 := by omega
    have e2 : doe / 36524 = c := by omega
    by_cases hd : 24 * c + q + 365 * s + doy < 1460
    · have e3 : doe / 1460 = 25 * c + q := by omega
      rw [e1, e2, e3]
      omega
    · have e3 : doe / 1460 = 25 * c + q + 1 := by omega
      rw [e1, e2, e3]
      omega

/-- Year of era from day of era: the division formula of `civil_from_days` inverts the day
count of `days_from_civil`. -/
theorem yoe_of_doe (yoe doy : Int) (h0 : 0 ≤ yoe) (h1 : yoe < 400) (h2 : 0 ≤ doy)
    (h3 : doy ≤ 365)
    (h4 : doy = 365 → (yoe + 1) % 4 = 0 ∧ ((yoe + 1) % 100 ≠ 0 ∨ (yoe + 1) % 400 = 0))
    (doe : Int) (hdoe : doe = yoe * 365 + yoe / 4 - yoe / 100 + doy) :
    (doe - doe / 1460 + doe / 36524 - doe / 146096) / 365 = yoe := by
  have a1 : 0 ≤ yoe / 100 := by omega
  have a2 : yoe / 100 ≤ 3 := by omega
  have a3 : 0 ≤ yoe % 100 / 4 := by omega
  have a4 : yoe % 100 / 4 ≤ 24 := by omega
  have a5 : doy = 365 → yoe % 4 = 3 ∧ (yoe % 100 / 4 ≠ 24 ∨ yoe / 100 = 3) := by omega
  have a6 : doe = 36524 * (yoe / 100) + 1461 * (yoe % 100 / 4) + 365 * (yoe % 4) + doy := by
    omega
  have a7 : 100 * (yoe / 100) + 4 * (yoe % 100 / 4) + yoe % 4 = yoe := by omega
  have a8 := yoe_of_doe_parts (yoe / 100) (yoe % 4) (yoe % 100 / 4) doy a1 a2 (by omega)
    (by omega) a3 a4 h2 h3 a5 doe a6
  rw [a8, a7]

/-- The value of `civil_from_days` on a day number given by era, year of era and day of
year. -/
theorem civil_from_days_of (z era yoe doy mp : Int) (hyoe0 : 0 ≤ yoe) (hyoe1 : yoe < 400)
    (hdoy0 : 0 ≤ doy) (hdoy1 : doy ≤ 365)
    (hleap : doy = 365 → (yoe + 1) % 4 = 0 ∧ ((yoe + 1) % 100 ≠ 0 ∨ (yoe + 1) % 400 = 0))
    (hz : z = era * 146097 + (yoe * 365 + yoe / 4 - yoe / 100 + doy) - 719468)
    (hmp : (5 * doy + 2) / 153 = mp) :
    civil_from_days z =
      (if (if mp < 10 then mp + 3 else mp - 9) ≤ 2 then yoe + era * 400 + 1
        else yoe + era * 400,
        if mp < 10 then mp + 3 else mp - 9, doy - (153 * mp + 2) / 5 + 1) := by
  have hdoe0 : 0 ≤ yoe * 365 + yoe / 4 - yoe / 100 + doy := by omega
  have hdoe1 : yoe * 365 + yoe / 4 - yoe / 100 + doy < 146097 := by omega
  have h1 : (z + 719468) / 146097 = era := by omega
  have h2 : (z + 719468) % 146097 = yoe * 365 + yoe / 4 - yoe / 100 + doy := by omega
  have h3 := yoe_of_doe yoe doy hyoe0 hyoe1 hdoy0 hdoy1 hleap _ rfl
  have h4 : yoe * 365 + yoe / 4 - yoe / 100 + doy - (365 * yoe + yoe / 4 - yoe / 100) = doy := by
    omega
  simp only [civil_from_days, h1, h2, h3, h4, hmp]

/-- Round trip on dates: `civil_from_days` recovers every calendar date from its day number. -/
theorem civil_from_days_from_civil (y m d : Int) (hm1 : 1 ≤ m) (hm2 : m ≤ 12) (hd1 : 1 ≤ d)
    (hd2 : d ≤ daysInMonth y m) : civil_from_days (days_from_civil y m d) = (y, m, d) := by
  have key : ∀ mp : Int, mp = (m + 9) % 12 →
      0 ≤ (153 * mp + 2) / 5 + d - 1 ∧ (153 * mp + 2) / 5 + d - 1 ≤ 365
      ∧ ((153 * mp + 2) / 5 + d - 1 = 365 → m = 2 ∧ d = 29)
      ∧ (5 * ((153 * mp + 2) / 5 + d - 1) + 2) / 153 = mp := by
    intro mp hmp
    unfold daysInMonth at hd2
    have hm : m = 1 ∨ m = 2 ∨ m = 3 ∨ m = 4 ∨ m = 5 ∨ m = 6 ∨ m = 7 ∨ m = 8 ∨ m = 9 ∨ m = 10
        ∨ m = 11 ∨ m = 12 := by omega
    rcases hm with h | h | h | h | h | h | h | h | h | h | h | h <;> subst h <;>
      simp at hd2 <;> subst hmp <;> norm_num <;> (try split at hd2) <;> omega
  obtain ⟨k1, k2, k3, k4⟩ := key _ rfl
  have hleap : (153 * ((m + 9) % 12) + 2) / 5 + d - 1 = 365 →
      ((if m ≤ 2 then y - 1 else y) % 400 + 1) % 4 = 0
        ∧ (((if m ≤ 2 then y - 1 else y) % 400 + 1) % 100 ≠ 0
          ∨ ((if m ≤ 2 then y - 1 else y) % 400 + 1) % 400 = 0) := by
    intro h
    obtain ⟨rfl, rfl⟩ := k3 h
    simp [daysInMonth] at hd2
    split at hd2
    · simp only [show (2 : Int) ≤ 2 from le_refl _, if_true]
      omega
    · omega
  rw [civil_from_days_of (days_from_civil y m d) ((if m ≤ 2 then y - 1 else y) / 400)
    ((if m ≤ 2 then y - 1 else y) % 400) ((153 * ((m + 9) % 12) + 2) / 5 + d - 1) ((m + 9) % 12)
    (by omega) (by omega) k1 k2 hleap rfl k4]
  have hm : m = 1 ∨ m = 2 ∨ m = 3 ∨ m = 4 ∨ m = 5 ∨ m = 6 ∨ m = 7 ∨ m = 8 ∨ m = 9 ∨ m = 10
      ∨ m = 11 ∨ m = 12 := by omega
  rcases hm with h | h | h | h | h | h | h | h | h | h | h | h <;> subst h <;> norm_num <;> omega

/-- Every day of era splits into centuries, four-year groups, years and a day of year. -/
theorem doe_parts (doe : Int) (h0 : 0 ≤ doe) (h1 : doe ≤ 146096) :
    ∃ c q s doy : Int, 0 ≤ c ∧ c ≤ 3 ∧ 0 ≤ q ∧ q ≤ 24 ∧ 0 ≤ s ∧ s ≤ 3 ∧ 0 ≤ doy ∧ doy ≤ 365
      ∧ (doy = 365 → s = 3 ∧ (q ≠ 24 ∨ c = 3))
      ∧ doe = 36524 * c + 1461 * q + 365 * s + doy := by
  by_cases hc : doe = 146096
  · exact ⟨3, 24, 3, 365, by omega⟩
  · by_cases hs : (doe % 36524) % 1461 = 1460
    · exact ⟨doe / 36524, doe % 36524 / 1461, 3, 365, by omega⟩
    · exact ⟨doe / 36524, doe % 36524 / 1461, doe % 36524 % 1461 / 365,
        doe % 36524 % 1461 % 365, by omega⟩

/-- Inverse direction: `civil_from_days` yields a calendar date whose day number is `z`. -/
theorem civil_from_days_spec (z : Int) :
    1 ≤ (civil_from_days z).2.1 ∧ (civil_from_days z).2.1 ≤ 12
      ∧ 1 ≤ (civil_from_days z).2.2
      ∧ (civil_from_days z).2.2 ≤ daysInMonth (civil_from_days z).1 (civil_from_days z).2.1
      ∧ days_from_civil (civil_from_days z).1 (civil_from_days z).2.1 (civil_from_days z).2.2
          = z := by
  obtain ⟨c, q, s, doy, hc0, hc1, hq0, hq1, hs0, hs1, hd0, hd1, hleap, hdoe⟩ :=
    doe_parts ((z + 719468) % 146097) (by omega) (by omega)
  have e1 : (100 * c + 4 * q + s) / 4 = 25 * c + q := by omega
  have e2 : (100 * c + 4 * q + s) / 100 = c := by omega
  have hz : z = (z + 719468) / 146097 * 146097
      + ((100 * c + 4 * q + s) * 365 + (100 * c + 4 * q + s) / 4 - (100 * c + 4 * q + s) / 100
        + doy) - 719468 := by
    rw [e1, e2]
    omega
  have hmp : (5 * doy + 2) / 153 = 0 ∨ (5 * doy + 2) / 153 = 1 ∨ (5 * doy + 2) / 153 = 2
      ∨ (5 * doy + 2) / 153 = 3 ∨ (5 * doy + 2) / 153 = 4 ∨ (5 * doy + 2) / 153 = 5
      ∨ (5 * doy + 2) / 153 = 6 ∨ (5 * doy + 2) / 153 = 7 ∨ (5 * doy + 2) / 153 = 8
      ∨ (5 * doy + 2) / 153 = 9 ∨ (5 * doy + 2) / 153 = 10 ∨ (5 * doy + 2) / 153 = 11 := by
    clear hz hdoe e1 e2
    omega
  have hl : doy = 365 → (100 * c + 4 * q + s + 1) % 4 = 0
      ∧ ((100 * c + 4 * q + s + 1) % 100 ≠ 0 ∨ (100 * c + 4 * q + s + 1) % 400 = 0) := by
    clear hz hdoe e1 e2 hmp
    omega
  rw [civil_from_days_of z ((z + 719468) / 146097) (100 * c + 4 * q + s) doy
    ((5 * doy + 2) / 153) (by clear hz hdoe hmp hl; omega) (by clear hz hdoe hmp hl; omega)
    hd0 hd1 hl hz rfl]
  clear hdoe
  generalize (z + 719468) / 146097 = era at hz ⊢
  generalize hyoe : 100 * c + 4 * q + s = yoe at hl e1 e2 hz ⊢
  have hy0 : 0 ≤ yoe := by omega
  have hy1 : yoe ≤ 399 := by omega
  clear e1 e2 hyoe hc0 hc1 hq0 hq1 hs0 hs1 hleap
  subst hz
  rcases hmp with h | h | h | h | h | h | h | h | h | h | h | h <;> rw [h] <;>
    simp only [days_from_civil, daysInMonth] <;> norm_num <;>
    refine ⟨by omega, by omega, by omega⟩

/-! ## Digits -/

/-- The decimal digit characters are exactly the ten characters `0` to `9`. -/
theorem isDigit_cases (c : Char) (h : c.isDigit = true) :
    c = '0' ∨ c = '1' ∨ c = '2' ∨ c = '3' ∨ c = '4' ∨ c = '5' ∨ c = '6' ∨ c = '7' ∨ c = '8'
      ∨ c = '9' := by
  have h1 : 48 ≤ c.val.toNat ∧ c.val.toNat ≤ 57 := by
    simpa [Char.isDigit, UInt32.le_def, Fin.le_def] using h
  have h2 : ∀ d : Char, c.val.toNat = d.val.toNat → c = d :=
    fun d hd => Char.ext (UInt32.ext hd)
  have h3 : c.val.toNat = 48 ∨ c.val.toNat = 49 ∨ c.val.toNat = 50 ∨ c.val.toNat = 51
      ∨ c.val.toNat = 52 ∨ c.val.toNat = 53 ∨ c.val.toNat = 54 ∨ c.val.toNat = 55
      ∨ c.val.toNat = 56 ∨ c.val.toNat = 57 := by omega
  rcases h3 with e | e | e | e | e | e | e | e | e | e
  · exact Or.inl (h2 _ e)
  · exact Or.inr (Or.inl (h2 _ e))
  · exact Or.inr (Or.inr (Or.inl (h2 _ e)))
  · exact Or.inr (Or.inr (Or.inr (Or.inl (h2 _ e))))
  · exact Or.inr (Or.inr (Or.inr (Or.inr (Or.inl (h2 _ e)))))
  · exact Or.inr (Or.inr (Or.inr (Or.inr (Or.inr (Or.inl (h2 _ e))))))
  · exact Or.inr (Or.inr (Or.inr (Or.inr (Or.inr (Or.inr (Or.inl (h2 _ e)))))))
  · exact Or.inr (Or.inr (Or.inr (Or.inr (Or.inr (Or.inr (Or.inr (Or.inl (h2 _ e))))))))
  · exact Or.inr (Or.inr (Or.inr (Or.inr (Or.inr (Or.inr (Or.inr (Or.inr (Or.inl (h2 _ e)))))))))
  · exact Or.inr (Or.inr (Or.inr (Or.inr (Or.inr (Or.inr (Or.inr (Or.inr (Or.inr (h2 _ e)))))))))

/-- A digit character is a decimal digit. -/
theorem digitChar_isDigit (n : Nat) : (digitChar n).isDigit = true := by
  have h : n % 10 < 10 := Nat.mod_lt _ (by decide)
  unfold digitChar
  interval_cases n % 10 <;> decide

/-- The value of the digit character of `n` is `n % 10`. -/
theorem digitVal_digitChar (n : Nat) : digitVal (digitChar n) = ((n % 10 : Nat) : Int) := by
  have h : n % 10 < 10 := Nat.mod_lt _ (by decide)
  unfold digitChar
  interval_cases n % 10 <;> decide

/-- A decimal digit is the digit character of its value, and its value is below ten. -/
theorem digitChar_digitVal (c : Char) (h : c.isDigit = true) :
    digitChar (digitVal c).toNat = c ∧ 0 ≤ digitVal c ∧ digitVal c ≤ 9
      ∧ c.toNat - 48 = (digitVal c).toNat := by
  rcases isDigit_cases c h with h | h | h | h | h | h | h | h | h | h <;> subst h <;> decide

/-- A decimal digit is neither white space, nor a sign, nor a NUL. -/
theorem isDigit_not_special (c : Char) (h : c.isDigit = true) :
    isspace c = false ∧ c ≠ '-' ∧ c ≠ '+' ∧ (c != '\x00') = true := by
  rcases isDigit_cases c h with h | h | h | h | h | h | h | h | h | h <;> subst h <;> decide

/-! ## Formatting -/

/-- A number below ten prints as one digit. -/
theorem decimalAux_small (fuel n : Nat) (h : n < 10) : decimalAux fuel n = [digitChar n] := by
  cases fuel <;> simp [decimalAux, h]

/-- A number from ten on prints as the digits of its tenth followed by its last digit. -/
theorem decimalAux_step (fuel n : Nat) (h : ¬ n < 10) :
    decimalAux (fuel + 1) n = decimalAux fuel (n / 10) ++ [digitChar n] := by
  simp [decimalAux, h]

/-- A two-digit conversion of a value from 0 to 99 prints exactly two digits. -/
theorem fmtInt_two (v : Int) (h0 : 0 ≤ v) (h1 : v ≤ 99) :
    fmtInt 2 v = [digitChar (v.toNat / 10), digitChar v.toNat] := by
  obtain ⟨n, rfl⟩ := Int.eq_ofNat_of_zero_le h0
  have hn : n ≤ 99 := by omega
  have hneg : ¬ ((n : Int) < 0) := by omega
  simp only [fmtInt, Int.natAbs_ofNat, hneg, if_false, Int.toNat_ofNat, decimal]
  by_cases h : n < 10
  · have e : n / 10 = 0 := by omega
    rw [decimalAux_small _ _ h, e]
    rfl
  · rw [decimalAux_step _ _ h, decimalAux_small _ _ (by omega)]
    rfl

/-- The year conversion of a value from 1000 to 9999 prints exactly four digits. -/
theorem fmtInt_year (v : Int) (h0 : 1000 ≤ v) (h1 : v ≤ 9999) :
    fmtInt 1 v = [digitChar (v.toNat / 1000), digitChar (v.toNat / 100),
      digitChar (v.toNat / 10), digitChar v.toNat] := by
  obtain ⟨n, rfl⟩ := Int.eq_ofNat_of_zero_le (by omega : 0 ≤ v)
  have hneg : ¬ ((n : Int) < 0) := by omega
  have e5 : n / 10 / 10 = n / 100 := by omega
  have e6 : n / 100 / 10 = n / 1000 := by omega
  simp only [fmtInt, Int.natAbs_ofNat, hneg, if_false, Int.toNat_ofNat, decimal]
  rw [decimalAux_step _ _ (by omega), decimalAux_step _ _ (by omega), e5,
    decimalAux_step _ _ (by omega), e6, decimalAux_small _ _ (by omega)]
  rfl

/-! ## From an instant to its text -/

/-- The year of a date is bounded by its day number: day numbers within 110000 days of the
epoch lie in the years 1660 to 2280. -/
theorem year_bounds_of_days (y m d : Int) (hd1 : 1 ≤ d)
    (hd2 : d ≤ 31) (h1 : -110000 ≤ days_from_civil y m d)
    (h2 : days_from_civil y m d ≤ 110000) : 1660 ≤ y ∧ y ≤ 2280 := by
  simp only [days_from_civil] at h1 h2
  have hmp : 0 ≤ (m + 9) % 12 ∧ (m + 9) % 12 ≤ 11 := by omega
  generalize (m + 9) % 12 = mp at h1 h2 hmp
  have hdoy : 0 ≤ (153 * mp + 2) / 5 + d - 1 ∧ (153 * mp + 2) / 5 + d - 1 ≤ 367 := by omega
  generalize (153 * mp + 2) / 5 + d - 1 = doy at h1 h2 hdoy
  have hy : y - 1 ≤ (if m ≤ 2 then y - 1 else y) ∧ (if m ≤ 2 then y - 1 else y) ≤ y := by
    split_ifs <;> omega
  generalize (if m ≤ 2 then y - 1 else y) = y1 at h1 h2 hy
  clear hmp hd1 hd2
  have hyoe : 0 ≤ y1 % 400 ∧ y1 % 400 ≤ 399 := by omega
  have hy1 : y1 = 400 * (y1 / 400) + y1 % 400 := by omega
  generalize y1 % 400 = yoe at h1 h2 hyoe hy1
  generalize y1 / 400 = era at h1 h2 hy1
  have hera : era = 4 ∨ era = 5 := by omega
  rcases hera with h | h <;> subst h <;> omega

/-- The broken-down local time of an instant within the tick range: every field is in its
calendar range and the year has four digits. -/
theorem localtime_fields (tz t : Int) (h1 : -9300000000 ≤ t + tz) (h2 : t + tz ≤ 9300000000) :
    ScanVars.isDateTime ⟨(localtime tz t).tm_mday, (localtime tz t).tm_mon + 1,
        (localtime tz t).tm_year + 1900, (localtime tz t).tm_hour, (localtime tz t).tm_min,
        (localtime tz t).tm_sec⟩
      ∧ 1660 ≤ (localtime tz t).tm_year + 1900 ∧ (localtime tz t).tm_year + 1900 ≤ 2280 := by
  obtain ⟨c1, c2, c3, c4, c5⟩ := civil_from_days_spec ((t + tz) / 86400)
  have hd31 : (civil_from_days ((t + tz) / 86400)).2.2 ≤ 31 := by
    refine le_trans c4 ?_
    unfold daysInMonth
    split_ifs <;> decide
  have hy := year_bounds_of_days _ _ _ c3 hd31 (by rw [c5]; omega) (by rw [c5]; omega)
  simp only [localtime, ScanVars.isDateTime]
  refine ⟨⟨by omega, by omega, c3, ?_, by omega, by omega, by omega, by omega, by omega,
    by omega⟩, by omega, by omega⟩
  have e1 : (civil_from_days ((t + tz) / 86400)).1 - 1900 + 1900
      = (civil_from_days ((t + tz) / 86400)).1 := by omega
  have e2 : (civil_from_days ((t + tz) / 86400)).2.1 - 1 + 1
      = (civil_from_days ((t + tz) / 86400)).2.1 := by omega
  rw [e1, e2]
  exact c4

/-- The days of a month never exceed 31. -/
theorem daysInMonth_le (y m : Int) : daysInMonth y m ≤ 31 := by
  unfold daysInMonth
  split_ifs <;> decide

/-- The format applied to fields in their calendar ranges, with a four-digit year, gives the
19-character text that spells them. -/
theorem formatted_eq_render (t : Tm)
    (hv : ScanVars.isDateTime ⟨t.tm_mday, t.tm_mon + 1, t.tm_year + 1900, t.tm_hour, t.tm_min,
      t.tm_sec⟩)
    (hy1 : 1000 ≤ t.tm_year + 1900) (hy2 : t.tm_year + 1900 ≤ 9999) :
    formatted t = renderFields ⟨t.tm_mday, t.tm_mon + 1, t.tm_year + 1900, t.tm_hour, t.tm_min,
      t.tm_sec⟩ := by
  obtain ⟨m1, m2, d1, d2, a1, a2, b1, b2, s1, s2⟩ := hv
  simp only at m1 m2 d1 d2 a1 a2 b1 b2 s1 s2
  have d3 := le_trans d2 (daysInMonth_le _ _)
  rw [formatted, fmtInt_two _ (by omega) (by omega), fmtInt_two (t.tm_mon + 1) (by omega) (by omega),
    fmtInt_year _ hy1 hy2, fmtInt_two _ a1 (by omega), fmtInt_two _ b1 (by omega),
    fmtInt_two _ s1 (by omega)]
  rfl

/-- The array `strftime` leaves behind in a 20-character buffer of NULs: the 19-character text
followed by its terminating NUL. -/
theorem strftime_eq_render (t : Tm)
    (hv : ScanVars.isDateTime ⟨t.tm_mday, t.tm_mon + 1, t.tm_year + 1900, t.tm_hour, t.tm_min,
      t.tm_sec⟩)
    (hy1 : 1000 ≤ t.tm_year + 1900) (hy2 : t.tm_year + 1900 ≤ 9999) :
    strftime (List.replicate 20 '\x00') t
      = renderFields ⟨t.tm_mday, t.tm_mon + 1, t.tm_year + 1900, t.tm_hour, t.tm_min,
          t.tm_sec⟩ ++ ['\x00'] := by
  rw [strftime, formatted_eq_render t hv hy1 hy2]
  rfl


/-- A two-digit number is spelled by its two digit characters. -/
theorem two_digits_value (v : Int) (h0 : 0 ≤ v) (h1 : v ≤ 99) :
    10 * digitVal (digitChar (v.toNat / 10)) + digitVal (digitChar v.toNat) = v := by
  rw [digitVal_digitChar, digitVal_digitChar]
  omega

/-- A four-digit number is spelled by its four digit characters. -/
theorem four_digits_value (v : Int) (h0 : 0 ≤ v) (h1 : v ≤ 9999) :
    1000 * digitVal (digitChar (v.toNat / 1000)) + 100 * digitVal (digitChar (v.toNat / 100))
      + 10 * digitVal (digitChar (v.toNat / 10)) + digitVal (digitChar v.toNat) = v := by
  rw [digitVal_digitChar, digitVal_digitChar, digitVal_digitChar, digitVal_digitChar]
  omega

/-- Reading back the text that spells a calendar date and time of day gives its fields. -/
theorem timestampFields_render (v : ScanVars) (hv : v.isDateTime) (hy1 : 0 ≤ v.yyyy)
    (hy2 : v.yyyy ≤ 9999) : timestampFields (String.mk (renderFields v)) = some v := by
  obtain ⟨m1, m2, d1, d2, a1, a2, b1, b2, s1, s2⟩ := hv
  have d3 := le_trans d2 (daysInMonth_le _ _)
  simp only [timestampFields, renderFields, digitChar_isDigit, and_self, if_true,
    two_digits_value v.dd (by omega) (by omega), two_digits_value v.mm (by omega) (by omega),
    four_digits_value v.yyyy hy1 hy2, two_digits_value v.hh24 a1 (by omega),
    two_digits_value v.mi b1 (by omega), two_digits_value v.ss s1 (by omega)]

/-- The text that spells a calendar date and time of day is a valid timestamp. -/
theorem validTimestamp_render (v : ScanVars) (hv : v.isDateTime) (hy1 : 0 ≤ v.yyyy)
    (hy2 : v.yyyy ≤ 9999) : validTimestamp (String.mk (renderFields v)) := by
  simp only [validTimestamp, timestampFields_render v hv hy1 hy2]
  exact hv

/-- Truncating division by the tick rate in terms of flooring division. -/
theorem to_time_t_eq (tp : Int) :
    Clock.to_time_t tp = if 0 ≤ tp then tp / 1000000000 else -((-tp) / 1000000000) := by
  unfold Clock.to_time_t
  split_ifs with h
  · exact Int.tdiv_eq_ediv h (by decide)
  · have h1 : tp = -(-tp) := by omega
    rw [h1, Int.neg_tdiv, Int.tdiv_eq_ediv (by omega) (by decide)]
    simp

/-- The characters `time_point_to_string` returns for an instant within the tick range: the
text that spells its local date and time, followed by a NUL. -/
theorem time_point_to_string_data (env : Env) (tp : TimePoint) (h1 : TICKS_MIN ≤ tp)
    (h2 : tp ≤ TICKS_MAX) (hz1 : -604800 ≤ env.tz) (hz2 : env.tz ≤ 604800) :
    ∃ v : ScanVars, v.isDateTime ∧ 1660 ≤ v.yyyy ∧ v.yyyy ≤ 2280
      ∧ (Tools.time_point_to_string env tp).data = renderFields v ++ ['\x00'] := by
  have hb : -9223372037 ≤ Clock.to_time_t tp ∧ Clock.to_time_t tp ≤ 9223372037 := by
    have h1' : (-9223372036854775808 : Int) ≤ tp := h1
    have h2' : (9223372036854775807 : Int) ≥ tp := h2
    rw [to_time_t_eq]
    split_ifs <;> omega
  obtain ⟨f1, f2, f3⟩ := localtime_fields env.tz (Clock.to_time_t tp) (by omega) (by omega)
  exact ⟨_, f1, f2, f3, strftime_eq_render _ f1 (by omega) (by omega)⟩

/-! ## Scanning -/

/-- Reading digits: a digit is consumed and accumulated. -/
theorem scanDigits_digit (c : Char) (cs : List Char) (acc : Nat) (h : c.isDigit = true) :
    scanDigits (c :: cs) acc = scanDigits cs (acc * 10 + (c.toNat - 48)) := by
  simp [scanDigits, h]

/-- Reading digits stops in front of a character that is no digit. -/
theorem scanDigits_stop (c : Char) (cs : List Char) (acc : Nat) (h : c.isDigit = false) :
    scanDigits (c :: cs) acc = (acc, c :: cs) := by
  simp [scanDigits, h]

/-- The `%d` conversion on input that starts with a digit reads the run of digits. -/
theorem scanInt_digit (c : Char) (cs : List Char) (h : c.isDigit = true) :
    scanInt (c :: cs)
      = some (wrap32 ((scanDigits (c :: cs) 0).1 : Int), (scanDigits (c :: cs) 0).2) := by
  rcases isDigit_cases c h with h | h | h | h | h | h | h | h | h | h <;> subst h <;> rfl

/-- A value within the range of `int` is stored unchanged. -/
theorem wrap32_small (x : Int) (h0 : -2147483648 ≤ x) (h1 : x ≤ 2147483647) : wrap32 x = x := by
  unfold wrap32
  omega

/-- The `%d` conversion on two digits followed by a character that is no digit. -/
theorem scanInt_two (a b x : Char) (rest : List Char) (ha : a.isDigit = true)
    (hb : b.isDigit = true) (hx : x.isDigit = false) :
    scanInt (a :: b :: x :: rest) = some (10 * digitVal a + digitVal b, x :: rest) := by
  obtain ⟨-, a0, a1, a2⟩ := digitChar_digitVal a ha
  obtain ⟨-, b0, b1, b2⟩ := digitChar_digitVal b hb
  rw [scanInt_digit a _ ha, scanDigits_digit a _ _ ha, scanDigits_digit b _ _ hb,
    scanDigits_stop x _ _ hx, a2, b2]
  rw [wrap32_small _ (by omega) (by omega)]
  congr 2
  omega

/-- The `%d` conversion on two digits at the end of the input. -/
theorem scanInt_two_end (a b : Char) (ha : a.isDigit = true) (hb : b.isDigit = true) :
    scanInt [a, b] = some (10 * digitVal a + digitVal b, []) := by
  obtain ⟨-, a0, a1, a2⟩ := digitChar_digitVal a ha
  obtain ⟨-, b0, b1, b2⟩ := digitChar_digitVal b hb
  rw [scanInt_digit a _ ha, scanDigits_digit a _ _ ha, scanDigits_digit b _ _ hb, a2, b2]
  rw [wrap32_small _ (by simp only [scanDigits]; omega) (by simp only [scanDigits]; omega)]
  simp only [scanDigits]
  congr 2
  omega

/-- The `%d` conversion on four digits followed by a character that is no digit. -/
theorem scanInt_four (a b c d x : Char) (rest : List Char) (ha : a.isDigit = true)
    (hb : b.isDigit = true) (hc : c.isDigit = true) (hd : d.isDigit = true)
    (hx : x.isDigit = false) :
    scanInt (a :: b :: c :: d :: x :: rest)
      = some (1000 * digitVal a + 100 * digitVal b + 10 * digitVal c + digitVal d,
          x :: rest) := by
  obtain ⟨-, a0, a1, a2⟩ := digitChar_digitVal a ha
  obtain ⟨-, b0, b1, b2⟩ := digitChar_digitVal b hb
  obtain ⟨-, c0, c1, c2⟩ := digitChar_digitVal c hc
  obtain ⟨-, d0, d1, d2⟩ := digitChar_digitVal d hd
  rw [scanInt_digit a _ ha, scanDigits_digit a _ _ ha, scanDigits_digit b _ _ hb,
    scanDigits_digit c _ _ hc, scanDigits_digit d _ _ hd, scanDigits_stop x _ _ hx,
    a2, b2, c2, d2]
  rw [wrap32_small _ (by omega) (by omega)]
  congr 2
  omega


/-- A text with the timestamp shape is 19 characters, digits and separators in place, and its
fields are the numbers the digits spell. -/
theorem timestampFields_some (s : String) (v : ScanVars) (h : timestampFields s = some v) :
    ∃ d1 d2 m1 m2 y1 y2 y3 y4 h1 h2 n1 n2 s1 s2 : Char,
      s.data = [d1, d2, '/', m1, m2, '/', y1, y2, y3, y4, ' ', h1, h2, ':', n1, n2, ':', s1, s2]
      ∧ (d1.isDigit = true ∧ d2.isDigit = true ∧ m1.isDigit = true ∧ m2.isDigit = true
        ∧ y1.isDigit = true ∧ y2.isDigit = true ∧ y3.isDigit = true ∧ y4.isDigit = true
        ∧ h1.isDigit = true ∧ h2.isDigit = true ∧ n1.isDigit = true ∧ n2.isDigit = true
        ∧ s1.isDigit = true ∧ s2.isDigit = true)
      ∧ v = { dd := 10 * digitVal d1 + digitVal d2
              mm := 10 * digitVal m1 + digitVal m2
              yyyy := 1000 * digitVal y1 + 100 * digitVal y2 + 10 * digitVal y3 + digitVal y4
              hh24 := 10 * digitVal h1 + digitVal h2
              mi := 10 * digitVal n1 + digitVal n2
              ss := 10 * digitVal s1 + digitVal s2 } := by
  unfold timestampFields at h
  split at h
  · rename_i d1 d2 p1 m1 m2 p2 y1 y2 y3 y4 p3 h1 h2 p4 n1 n2 p5 s1 s2 heq
    split at h
    · rename_i hc
      obtain ⟨rfl, rfl, rfl, rfl, rfl, hd⟩ := hc
      exact ⟨d1, d2, m1, m2, y1, y2, y3, y4, h1, h2, n1, n2, s1, s2, heq, hd,
        (Option.some.inj h).symm⟩
    · exact absurd h (by simp)
  · exact absurd h (by simp)

/-- On a text with the timestamp shape, `sscanf` stores all six fields, whatever the locals
held before. -/
theorem sscanf_timestamp (s : String) (v init : ScanVars) (h : timestampFields s = some v) :
    sscanf init (c_str s) = v := by
  obtain ⟨d1, d2, m1, m2, y1, y2, y3, y4, h1, h2, n1, n2, s1, s2, hs, hd, rfl⟩ :=
    timestampFields_some s v h
  obtain ⟨e1, e2, e3, e4, e5, e6, e7, e8, e9, e10, e11, e12, e13, e14⟩ := hd
  have hc : c_str s = s.data := by
    rw [c_str, hs]
    simp [List.takeWhile, (isDigit_not_special d1 e1).2.2.2, (isDigit_not_special d2 e2).2.2.2,
      (isDigit_not_special m1 e3).2.2.2, (isDigit_not_special m2 e4).2.2.2,
      (isDigit_not_special y1 e5).2.2.2, (isDigit_not_special y2 e6).2.2.2,
      (isDigit_not_special y3 e7).2.2.2, (isDigit_not_special y4 e8).2.2.2,
      (isDigit_not_special h1 e9).2.2.2, (isDigit_not_special h2 e10).2.2.2,
      (isDigit_not_special n1 e11).2.2.2, (isDigit_not_special n2 e12).2.2.2,
      (isDigit_not_special s1 e13).2.2.2, (isDigit_not_special s2 e14).2.2.2]
  have hsp : List.dropWhile isspace (' ' :: h1 :: h2 :: ':' :: n1 :: n2 :: ':' :: [s1, s2])
      = h1 :: h2 :: ':' :: n1 :: n2 :: ':' :: [s1, s2] := by
    simp only [List.dropWhile_cons, show isspace ' ' = true from rfl,
      (isDigit_not_special h1 e9).1, if_true, Bool.false_eq_true, if_false]
  simp only [hc, hs, sscanf, expect, if_true, Option.some_bind, hsp,
    fun r => scanInt_two d1 d2 '/' r e1 e2 (by decide),
    fun r => scanInt_two m1 m2 '/' r e3 e4 (by decide),
    fun r => scanInt_four y1 y2 y3 y4 ' ' r e5 e6 e7 e8 (by decide),
    fun r => scanInt_two h1 h2 ':' r e9 e10 (by decide),
    fun r => scanInt_two n1 n2 ':' r e11 e12 (by decide),
    scanInt_two_end s1 s2 e13 e14]

/-! ## From a text to its instant and back -/

/-- A value within the 64-bit range is stored unchanged. -/
theorem wrap64_small (x : Int) (h0 : -9223372036854775808 ≤ x) (h1 : x ≤ 9223372036854775807) :
    wrap64 x = x := by
  unfold wrap64
  omega

/-- Day numbers of the dates of the years 1678 to 2261. -/
theorem days_bounds_of_year (y m d : Int) (hm1 : 1 ≤ m) (hm2 : m ≤ 12) (hd1 : 1 ≤ d)
    (hd2 : d ≤ 31) (hy1 : 1678 ≤ y) (hy2 : y ≤ 2261) :
    -106740 ≤ days_from_civil y m d ∧ days_from_civil y m d ≤ 106740 := by
  simp only [days_from_civil]
  by_cases hm : m ≤ 2
  · have hdoy : 306 ≤ (153 * ((m + 9) % 12) + 2) / 5 + d - 1
        ∧ (153 * ((m + 9) % 12) + 2) / 5 + d - 1 ≤ 367 := by omega
    generalize (153 * ((m + 9) % 12) + 2) / 5 + d - 1 = doy at hdoy
    simp only [hm, if_true]
    have hera : (y - 1) / 400 = 4 ∨ (y - 1) / 400 = 5 := by omega
    rcases hera with h | h <;> rw [h] <;> omega
  · have hdoy : 0 ≤ (153 * ((m + 9) % 12) + 2) / 5 + d - 1
        ∧ (153 * ((m + 9) % 12) + 2) / 5 + d - 1 ≤ 367 := by omega
    generalize (153 * ((m + 9) % 12) + 2) / 5 + d - 1 = doy at hdoy
    simp only [hm, if_false]
    have hera : y / 400 = 4 ∨ y / 400 = 5 := by omega
    rcases hera with h | h <;> rw [h] <;> omega

/-- The day number is linear in the day of the month. -/
theorem days_from_civil_day (y m d : Int) :
    days_from_civil y m 1 + (d - 1) = days_from_civil y m d := by
  simp only [days_from_civil]
  omega

/-- The digit character depends on the last decimal digit only. -/
theorem digitChar_congr (n k : Nat) (h : n % 10 = k % 10) : digitChar n = digitChar k := by
  unfold digitChar
  rw [h]

/-- The digits printed for a two-digit number are the digits that spell it. -/
theorem digitChar_two (a b : Char) (ha : a.isDigit = true) (hb : b.isDigit = true) :
    digitChar ((10 * digitVal a + digitVal b).toNat / 10) = a
      ∧ digitChar (10 * digitVal a + digitVal b).toNat = b := by
  obtain ⟨a0, a1, a2, -⟩ := digitChar_digitVal a ha
  obtain ⟨b0, b1, b2, -⟩ := digitChar_digitVal b hb
  constructor
  · rw [digitChar_congr _ (digitVal a).toNat (by omega)]
    exact a0
  · rw [digitChar_congr _ (digitVal b).toNat (by omega)]
    exact b0

/-- The digits printed for a four-digit number are the digits that spell it. -/
theorem digitChar_four (a b c d : Char) (ha : a.isDigit = true) (hb : b.isDigit = true)
    (hc : c.isDigit = true) (hd : d.isDigit = true) :
    digitChar ((1000 * digitVal a + 100 * digitVal b + 10 * digitVal c + digitVal d).toNat / 1000)
        = a
      ∧ digitChar
          ((1000 * digitVal a + 100 * digitVal b + 10 * digitVal c + digitVal d).toNat / 100) = b
      ∧ digitChar
          ((1000 * digitVal a + 100 * digitVal b + 10 * digitVal c + digitVal d).toNat / 10) = c
      ∧ digitChar (1000 * digitVal a + 100 * digitVal b + 10 * digitVal c + digitVal d).toNat
          = d := by
  obtain ⟨a0, a1, a2, -⟩ := digitChar_digitVal a ha
  obtain ⟨b0, b1, b2, -⟩ := digitChar_digitVal b hb
  obtain ⟨c0, c1, c2, -⟩ := digitChar_digitVal c hc
  obtain ⟨d0, d1, d2, -⟩ := digitChar_digitVal d hd
  refine ⟨?_, ?_, ?_, ?_⟩
  · rw [digitChar_congr _ (digitVal a).toNat (by omega)]
    exact a0
  · rw [digitChar_congr _ (digitVal b).toNat (by omega)]
    exact b0
  · rw [digitChar_congr _ (digitVal c).toNat (by omega)]
    exact c0
  · rw [digitChar_congr _ (digitVal d).toNat (by omega)]
    exact d0

/-- The text that spells the fields of a well-shaped timestamp is that timestamp. -/
theorem renderFields_timestamp (s : String) (v : ScanVars) (h : timestampFields s = some v) :
    renderFields v = s.data := by
  obtain ⟨d1, d2, m1, m2, y1, y2, y3, y4, h1, h2, n1, n2, s1, s2, hs, hd, rfl⟩ :=
    timestampFields_some s v h
  obtain ⟨e1, e2, e3, e4, e5, e6, e7, e8, e9, e10, e11, e12, e13, e14⟩ := hd
  simp only [hs, renderFields, digitChar_two d1 d2 e1 e2, digitChar_two m1 m2 e3 e4,
    digitChar_four y1 y2 y3 y4 e5 e6 e7 e8, digitChar_two h1 h2 e9 e10,
    digitChar_two n1 n2 e11 e12, digitChar_two s1 s2 e13 e14]

/-- The instant `string_to_time_point` returns for a calendar date and time of day in the
years 1678 to 2261: its seconds since the epoch, less the zone offset, in ticks. -/
theorem string_to_time_point_timestamp (env : Env) (s : String) (v : ScanVars)
    (h : timestampFields s = some v) (hv : v.isDateTime) (hy1 : 1678 ≤ v.yyyy)
    (hy2 : v.yyyy ≤ 2261) (hz1 : -604800 ≤ env.tz) (hz2 : env.tz ≤ 604800) :
    Tools.string_to_time_point env s
      = (days_from_civil v.yyyy v.mm v.dd * 86400 + v.hh24 * 3600 + v.mi * 60 + v.ss - env.tz)
          * 1000000000 := by
  obtain ⟨m1, m2, d1, d2, a1, a2, b1, b2, s1, s2⟩ := hv
  have d3 := le_trans d2 (daysInMonth_le _ _)
  have hb := days_bounds_of_year v.yyyy v.mm v.dd m1 m2 d1 d3 hy1 hy2
  have e1 : (v.yyyy - 1900) + 1900 + (v.mm - 1) / 12 = v.yyyy := by omega
  have e2 : (v.mm - 1) % 12 + 1 = v.mm := by omega
  simp only [Tools.string_to_time_point, sscanf_timestamp s v env.uninit h, mktime,
    Clock.from_time_t, wrap32_small (v.yyyy - 1900) (by omega) (by omega),
    wrap32_small (v.mm - 1) (by omega) (by omega), e1, e2, days_from_civil_day]
  generalize days_from_civil v.yyyy v.mm v.dd = days at hb
  exact wrap64_small _ (by omega) (by omega)


/-- The local broken-down time of the instant of a calendar date and time of day. -/
theorem localtime_of_fields (tz : Int) (v : ScanVars) (hv : v.isDateTime) :
    localtime tz
        (days_from_civil v.yyyy v.mm v.dd * 86400 + v.hh24 * 3600 + v.mi * 60 + v.ss - tz)
      = { tm_sec := v.ss, tm_min := v.mi, tm_hour := v.hh24, tm_mday := v.dd,
          tm_mon := v.mm - 1, tm_year := v.yyyy - 1900 } := by
  obtain ⟨m1, m2, d1, d2, a1, a2, b1, b2, s1, s2⟩ := hv
  have hc := civil_from_days_from_civil v.yyyy v.mm v.dd m1 m2 d1 d2
  generalize days_from_civil v.yyyy v.mm v.dd = days at hc
  have e1 : (days * 86400 + v.hh24 * 3600 + v.mi * 60 + v.ss - tz + tz) / 86400 = days := by
    omega
  have e2 : (days * 86400 + v.hh24 * 3600 + v.mi * 60 + v.ss - tz + tz) % 86400
      = v.hh24 * 3600 + v.mi * 60 + v.ss := by omega
  have e3 : (v.hh24 * 3600 + v.mi * 60 + v.ss) % 60 = v.ss := by omega
  have e4 : (v.hh24 * 3600 + v.mi * 60 + v.ss) / 60 % 60 = v.mi := by omega
  have e5 : (v.hh24 * 3600 + v.mi * 60 + v.ss) / 3600 = v.hh24 := by omega
  simp only [localtime, e1, e2, e3, e4, e5, hc]

/-- Round trip on the characters: for a valid timestamp of the years 1678 to 2261,
`time_point_to_string (string_to_time_point s)` holds the characters of `s` followed by a
NUL. -/
theorem roundtrip_data (env : Env) (s : String) (hs : validTimestamp s)
    (hy1 : 1678 ≤ timestampYear s) (hy2 : timestampYear s ≤ 2261) (hz1 : -604800 ≤ env.tz)
    (hz2 : env.tz ≤ 604800) :
    (Tools.time_point_to_string env (Tools.string_to_time_point env s)).data
      = s.data ++ ['\x00'] := by
  unfold validTimestamp at hs
  unfold timestampYear at hy1 hy2
  cases h : timestampFields s with
  | none => simp [h] at hs
  | some v =>
    simp only [h] at hs hy1 hy2
    have hv := hs
    obtain ⟨m1, m2, d1, d2, a1, a2, b1, b2, s1, s2⟩ := hs
    rw [string_to_time_point_timestamp env s v h hv hy1 hy2 hz1 hz2, Tools.time_point_to_string,
      Clock.to_time_t, Int.mul_tdiv_cancel _ (by decide), localtime_of_fields env.tz v hv]
    have e1 : v.mm - 1 + 1 = v.mm := by omega
    have e2 : v.yyyy - 1900 + 1900 = v.yyyy := by omega
    rw [strftime_eq_render _ (by simpa only [e1, e2] using hv) (by simp only [e2]; omega)
      (by simp only [e2]; omega)]
    simp only [e1, e2]
    rw [← renderFields_timestamp s v h]

/-! ## The two conversions of `Tools` -/

/-- C1 as stated fails. For the valid timestamp `12/01/2020 06:00:01` the text that comes back
has 20 characters, the timestamp followed by a NUL, so it is not the timestamp. For the valid
timestamp `01/01/3000 00:00:00` the seconds count does not fit the nanosecond tick count and
not even the first 19 characters that come back are those of the timestamp. -/
theorem roundtrip_counterexample :
    (validTimestamp "12/01/2020 06:00:01"
      ∧ Tools.time_point_to_string Env.utc
          (Tools.string_to_time_point Env.utc "12/01/2020 06:00:01") ≠ "12/01/2020 06:00:01"
      ∧ (Tools.time_point_to_string Env.utc
          (Tools.string_to_time_point Env.utc "12/01/2020 06:00:01")).length = 20)
    ∧ (validTimestamp "01/01/3000 00:00:00"
      ∧ (Tools.time_point_to_string Env.utc
          (Tools.string_to_time_point Env.utc "01/01/3000 00:00:00")).data.take 19
        ≠ "01/01/3000 00:00:00".data) := by
  decide

/-- C1, amended: for every valid timestamp `s` of the shape `DD/MM/YYYY HH:MM:SS` whose year is
1678 to 2261, under one fixed local zone (offset at most a week),
the first 19 characters of `time_point_to_string (string_to_time_point s)` are exactly `s`. -/
theorem roundtrip_first_19 (env : Env) (s : String) (hs : validTimestamp s)
    (hy1 : 1678 ≤ timestampYear s) (hy2 : timestampYear s ≤ 2261) (hz1 : -604800 ≤ env.tz)
    (hz2 : env.tz ≤ 604800) :
    (Tools.time_point_to_string env (Tools.string_to_time_point env s)).data.take 19
      = s.data := by
  have hlen : s.data.length = 19 := by
    unfold validTimestamp at hs
    cases h : timestampFields s with
    | none => simp [h] at hs
    | some v =>
      obtain ⟨d1, d2, m1, m2, y1, y2, y3, y4, h1, h2, n1, n2, s1, s2, hd, -, -⟩ :=
        timestampFields_some s v h
      rw [hd]
      rfl
  rw [roundtrip_data env s hs hy1 hy2 hz1 hz2, ← hlen, List.take_left]

/-- Witness for C1: the timestamp of the first example Task, in the zone two hours east of
UTC. -/
theorem roundtrip_first_19_witness :
    validTimestamp "12/01/2020 06:00:01"
      ∧ (Tools.time_point_to_string ⟨7200, ⟨0, 0, 0, 0, 0, 0⟩⟩
          (Tools.string_to_time_point ⟨7200, ⟨0, 0, 0, 0, 0, 0⟩⟩ "12/01/2020 06:00:01")).data.take
            19
        = "12/01/2020 06:00:01".data :=
  ⟨by decide, roundtrip_first_19 ⟨7200, ⟨0, 0, 0, 0, 0, 0⟩⟩ "12/01/2020 06:00:01" (by decide)
    (by decide) (by decide) (by decide) (by decide)⟩

/-- C2: for every instant a `TimePoint` can hold (zone offset at most a week),
`time_point_to_string` returns 20 characters, not 19: a valid `DD/MM/YYYY HH:MM:SS` text
followed by one NUL character. -/
theorem time_point_to_string_has_20_chars (env : Env) (tp : TimePoint) (h1 : TICKS_MIN ≤ tp)
    (h2 : tp ≤ TICKS_MAX) (hz1 : -604800 ≤ env.tz) (hz2 : env.tz ≤ 604800) :
    (Tools.time_point_to_string env tp).length = 20
      ∧ validTimestamp (String.mk ((Tools.time_point_to_string env tp).data.take 19))
      ∧ (Tools.time_point_to_string env tp).data.drop 19 = ['\x00'] := by
  obtain ⟨v, hv, hy1, hy2, hd⟩ := time_point_to_string_data env tp h1 h2 hz1 hz2
  have e1 : (Tools.time_point_to_string env tp).data.take 19 = renderFields v := by
    rw [hd]
    rfl
  refine ⟨?_, ?_, ?_⟩
  · rw [String.length, hd]
    rfl
  · rw [e1]
    exact validTimestamp_render v hv (by omega) (by omega)
  · rw [hd]
    rfl

/-- Witness for C2: the epoch instant, the default `last_run` of every Task, in the UTC zone:
the text returned has 20 characters, `01/01/1970 00:00:00` followed by a NUL. -/
theorem time_point_to_string_has_20_chars_witness :
    Tools.time_point_to_string Env.utc epoch = "01/01/1970 00:00:00\x00"
      ∧ (Tools.time_point_to_string Env.utc epoch).length = 20
      ∧ validTimestamp (String.mk ((Tools.time_point_to_string Env.utc epoch).data.take 19))
      ∧ (Tools.time_point_to_string Env.utc epoch).data.drop 19 = ['\x00'] :=
  ⟨by decide, time_point_to_string_has_20_chars Env.utc epoch (by decide) (by decide)
    (by decide) (by decide)⟩

/-! ## The runs-stage setters -/

open TaskBuilderBase TaskRunsBuilder

/-- C3: on every in-progress Task, whatever was set before, `runs().once()` leaves the period
equal to 0. -/
theorem once_period_zero (task : Task) : (once (runs task)).period = 0 := rfl

/-- C4: for every `n`, `runs().every(n).weeks()` yields period `n × 604800` and
`runs().every(n).days()` yields period `n × 86400`; `every(2).weeks()` gives 1,209,600 and
`every(3).days()` gives 259,200. -/
theorem every_weeks_days_period (n : Seconds) (task : Task) :
    (weeks (every n (runs task))).period = n * 604800
      ∧ (days (every n (runs task))).period = n * 86400
      ∧ (weeks (every 2 (runs task))).period = 1209600
      ∧ (days (every 3 (runs task))).period = 259200 := by
  simp only [weeks, days, every, runs]
  norm_num

/-- C5: whatever the prior period, `second()`, `minute()`, `hour()`, `day()` and `week()` set
the period to exactly 1, 60, 3600, 86400 and 604800 seconds, so `every(n).week()` yields
604800 for every `n`. -/
theorem singular_setters_period (task : Task) :
    (second (runs task)).period = 1
      ∧ (minute (runs task)).period = 60
      ∧ (hour (runs task)).period = 3600
      ∧ (day (runs task)).period = 86400
      ∧ (week (runs task)).period = 604800
      ∧ ∀ n : Seconds, (week (every n (runs task))).period = 604800 := by
  simp only [second, minute, hour, day, week, every, runs]
  norm_num

/-- C6: whatever the prior period, `runs().month()` sets the period to 18,144,000 seconds, which
is 210 days (7 × 30 days) and not the 30 days = 2,592,000 seconds of the claim. -/
theorem month_period_is_210_days (task : Task) :
    (month (runs task)).period = 18144000
      ∧ (month (runs task)).period = 210 * 86400
      ∧ (month (runs task)).period ≠ 30 * 86400 := by
  simp only [month, runs]
  norm_num

/-- C7: whatever the prior period, `runs().year()` sets the period to 6,622,560,000 seconds,
which is 76,650 days (7 × 30 × 365 days) and not the 365 days = 31,536,000 seconds of the
claim. -/
theorem year_period_is_76650_days (task : Task) :
    (year (runs task)).period = 6622560000
      ∧ (year (runs task)).period = 76650 * 86400
      ∧ (year (runs task)).period ≠ 365 * 86400 := by
  simp only [year, runs]
  norm_num

/-- C8: for each of the seven units and every prior period `p`, the pluralized setter yields
`p × L`, where `L` is the period the singular setter of the same unit sets (on any Task
`other`); `seconds()` leaves the Task unchanged, and `every(1)` followed by the plural setter
gives the same Task as the singular setter. -/
theorem plural_setter_scales_by_singular (task other : Task) :
    ((seconds (runs task)).period = task.period * (second (runs other)).period
      ∧ (minutes (runs task)).period = task.period * (minute (runs other)).period
      ∧ (hours (runs task)).period = task.period * (hour (runs other)).period
      ∧ (days (runs task)).period = task.period * (day (runs other)).period
      ∧ (weeks (runs task)).period = task.period * (week (runs other)).period
      ∧ (months (runs task)).period = task.period * (month (runs other)).period
      ∧ (years (runs task)).period = task.period * (year (runs other)).period)
    ∧ seconds (runs task) = task
    ∧ (seconds (every 1 (runs task)) = second (runs task)
      ∧ minutes (every 1 (runs task)) = minute (runs task)
      ∧ hours (every 1 (runs task)) = hour (runs task)
      ∧ days (every 1 (runs task)) = day (runs task)
      ∧ weeks (every 1 (runs task)) = week (runs task)
      ∧ months (every 1 (runs task)) = month (runs task)
      ∧ years (every 1 (runs task)) = year (runs task)) := by
  simp only [seconds, second, minutes, minute, hours, hour, days, day, weeks, week, months,
    month, years, year, every, runs, mul_one, one_mul, and_self]

/-! ## Defaults and chains -/

/-- C9: the Task obtained by converting `Task::create()` with no setter called has empty name
and action, period 0, and `last_run` and `next_run` at the epoch instant (tick count 0). -/
theorem create_defaults :
    (TaskBuilderBase.toTask Task.create).name = ""
      ∧ (TaskBuilderBase.toTask Task.create).action = ""
      ∧ (TaskBuilderBase.toTask Task.create).period = 0
      ∧ (TaskBuilderBase.toTask Task.create).last_run = epoch
      ∧ (TaskBuilderBase.toTask Task.create).next_run = epoch
      ∧ epoch = 0 := by
  refine ⟨rfl, rfl, rfl, rfl, rfl, ?_⟩
  decide

/-- No call of a chain writes `last_run`. -/
theorem Call.apply_last_run (env : Env) (c : Call) (task : Task) :
    (c.apply env task).last_run = task.last_run := by
  cases c <;> rfl

/-- A call that is not a runs-stage setter leaves the period as it was. -/
theorem Call.apply_period (env : Env) (c : Call) (task : Task) (h : c.isRunsSetter = false) :
    (c.apply env task).period = task.period := by
  cases c <;> first | rfl | simp [Call.isRunsSetter] at h

/-- A call other than `on` leaves `next_run` as it was. -/
theorem Call.apply_next_run (env : Env) (c : Call) (task : Task) (h : ∀ d, c ≠ Call.on d) :
    (c.apply env task).next_run = task.next_run := by
  cases c <;> first | rfl | exact absurd rfl (h _)

/-- A runs-stage setter is a member of `TaskRunsBuilder` only, and only `runs()` returns a
handle of that class from a handle of another class. -/
theorem Call.returns_not_runs (h h1 : Handle) (c : Call) (hh : h ≠ Handle.taskRunsBuilder)
    (hc : c ≠ Call.runs) (hr : c.returns h = some h1) :
    c.isRunsSetter = false ∧ h1 ≠ Handle.taskRunsBuilder := by
  cases c <;> simp_all [Call.returns, Call.isRunsSetter] <;> subst hr <;> simp_all

/-- The calls of a chain never write `last_run`. -/
theorem runChain_last_run (env : Env) (calls : List Call) (task : Task) :
    (runChain env calls task).last_run = task.last_run := by
  induction calls generalizing task with
  | nil => rfl
  | cons c cs ih => rw [runChain, ih, Call.apply_last_run]

/-- A chain without an `on` call never writes `next_run`. -/
theorem runChain_next_run (env : Env) (calls : List Call) (task : Task)
    (h : ∀ d, Call.on d ∉ calls) : (runChain env calls task).next_run = task.next_run := by
  induction calls generalizing task with
  | nil => rfl
  | cons c cs ih =>
    rw [runChain, ih _ (fun d hd => h d (List.mem_cons_of_mem _ hd)),
      Call.apply_next_run env c task (fun d hd => h d (hd ▸ List.mem_cons_self _ _))]

/-- A chain that compiles from a handle other than a `TaskRunsBuilder` and never calls `runs()`
leaves the period as it was. -/
theorem runChain_period (env : Env) (calls : List Call) (h : Handle) (task : Task)
    (hh : h ≠ Handle.taskRunsBuilder) (hc : chainReturns h calls ≠ none)
    (hr : Call.runs ∉ calls) : (runChain env calls task).period = task.period := by
  induction calls generalizing h task with
  | nil => rfl
  | cons c cs ih =>
    rw [chainReturns] at hc
    cases hret : c.returns h with
    | none => simp [hret] at hc
    | some h1 =>
      rw [hret] at hc
      have hne : c ≠ Call.runs := fun e => hr (e ▸ List.mem_cons_self _ _)
      obtain ⟨hset, hh1⟩ := Call.returns_not_runs h h1 c hh hne hret
      rw [runChain, ih h1 _ hh1 hc (fun hm => hr (List.mem_cons_of_mem _ hm)),
        Call.apply_period env c task hset]

/-- C10 as stated fails: the chain `Task::create().begins().on("12/01/2020 06:00:01")` compiles
and contains no `runs()` call, yet its `next_run` is not the epoch instant. -/
theorem no_runs_next_run_counterexample :
    ¬ ∀ (env : Env) (calls : List Call), chainReturns Handle.taskBuilder calls ≠ none →
        Call.runs ∉ calls →
        (build env calls).period = 0 ∧ (build env calls).last_run = epoch
          ∧ (build env calls).next_run = epoch := by
  intro h
  have h1 := h Env.utc [Call.begins, Call.on "12/01/2020 06:00:01"]
    (by decide) (by decide)
  exact absurd h1.2.2 (by decide)

/-- C10, amended: every Task built from `Task::create()` by a chain of builder calls that
compiles and contains no `runs()` call has period 0 and `last_run` at the epoch instant; its
`next_run` is the epoch instant when the chain contains no `on` call either. -/
theorem no_runs_period_zero (env : Env) (calls : List Call)
    (hc : chainReturns Handle.taskBuilder calls ≠ none) (hr : Call.runs ∉ calls) :
    (build env calls).period = 0 ∧ (build env calls).last_run = epoch
      ∧ ((∀ d, Call.on d ∉ calls) → (build env calls).next_run = epoch) := by
  refine ⟨?_, ?_, fun hd => ?_⟩
  · exact runChain_period env calls Handle.taskBuilder Task.create (by decide) hc hr
  · exact runChain_last_run env calls Task.create
  · exact runChain_next_run env calls Task.create hd

/-- Witness for C10: the chain `with().name("Task1").doing().action("Run antivirus")`. -/
theorem no_runs_period_zero_witness :
    (chainReturns Handle.taskBuilder
          [Call.with_, Call.name "Task1", Call.doing, Call.action "Run antivirus"] ≠ none
      ∧ Call.runs ∉ [Call.with_, Call.name "Task1", Call.doing, Call.action "Run antivirus"])
    ∧ (build Env.utc
        [Call.with_, Call.name "Task1", Call.doing, Call.action "Run antivirus"]).period = 0
    ∧ (build Env.utc
        [Call.with_, Call.name "Task1", Call.doing, Call.action "Run antivirus"]).last_run
          = epoch
    ∧ ((∀ d, Call.on d ∉
          [Call.with_, Call.name "Task1", Call.doing, Call.action "Run antivirus"]) →
        (build Env.utc
          [Call.with_, Call.name "Task1", Call.doing, Call.action "Run antivirus"]).next_run
            = epoch) :=
  ⟨⟨by decide, by decide⟩,
    no_runs_period_zero Env.utc
      [Call.with_, Call.name "Task1", Call.doing, Call.action "Run antivirus"]
      (by decide) (by decide)⟩

/-! ## The examples of `main` and the stream output -/

/-- A valid timestamp has 19 characters. -/
theorem validTimestamp_length (s : String) (hs : validTimestamp s) : s.data.length = 19 := by
  unfold validTimestamp at hs
  cases h : timestampFields s with
  | none => simp [h] at hs
  | some v =>
    obtain ⟨d1, d2, m1, m2, y1, y2, y3, y4, h1, h2, n1, n2, s1, s2, hd, -, -⟩ :=
      timestampFields_some s v h
    rw [hd]
    rfl

/-- The first 19 characters that `time_point_to_string` returns for the instant of a valid
timestamp `s` of the years 1678 to 2261 are the characters of `s`. -/
theorem roundtrip_take (env : Env) (s : String) (hs : validTimestamp s)
    (hy1 : 1678 ≤ timestampYear s) (hy2 : timestampYear s ≤ 2261) (hz1 : -604800 ≤ env.tz)
    (hz2 : env.tz ≤ 604800) :
    (Tools.time_point_to_string env (Tools.string_to_time_point env s)).data.take 19
      = s.data := by
  rw [roundtrip_data env s hs hy1 hy2 hz1 hz2, ← validTimestamp_length s hs, List.take_left]

/-- C11 as stated fails. At the witness of the claim, `Task1`, `Run antivirus`,
`12/01/2020 06:00:01`, the text of `next_run` has 20 characters, the timestamp followed by a
NUL, so it is not the timestamp. For the valid timestamp `01/01/3000 00:00:00` the instant
does not fit the tick count and not even the first 19 characters are those of the
timestamp. -/
theorem first_example_counterexample :
    (validTimestamp "12/01/2020 06:00:01"
      ∧ Tools.time_point_to_string Env.utc
          (firstExample Env.utc "Task1" "Run antivirus" "12/01/2020 06:00:01").next_run
        ≠ "12/01/2020 06:00:01")
    ∧ (validTimestamp "01/01/3000 00:00:00"
      ∧ (Tools.time_point_to_string Env.utc
          (firstExample Env.utc "Task1" "Run antivirus" "01/01/3000 00:00:00").next_run).data.take
            19
        ≠ "01/01/3000 00:00:00".data) := by
  decide

/-- C11, amended: for every name `a`, action `b` and valid timestamp `s` whose year is 1678 to
2261, under one fixed local zone (offset at most a week), the Task built by
`Task::create().with().name(a).doing().action(b).runs().every(1).week().begins().on(s)` has
name `a`, action `b`, period 604800 seconds, and the first 19 characters of the text of its
`next_run` are exactly `s`. -/
theorem first_example_fields (env : Env) (a b s : String) (hs : validTimestamp s)
    (hy1 : 1678 ≤ timestampYear s) (hy2 : timestampYear s ≤ 2261) (hz1 : -604800 ≤ env.tz)
    (hz2 : env.tz ≤ 604800) :
    (firstExample env a b s).name = a
      ∧ (firstExample env a b s).action = b
      ∧ (firstExample env a b s).period = 604800
      ∧ (Tools.time_point_to_string env (firstExample env a b s).next_run).data.take 19
          = s.data := by
  refine ⟨rfl, rfl, ?_, roundtrip_take env s hs hy1 hy2 hz1 hz2⟩
  show (60 * 60 * 24 * 7 : ℚ) = 604800
  norm_num

/-- Witness for C11: the first example of `main`, in the UTC zone. -/
theorem first_example_fields_witness :
    validTimestamp "12/01/2020 06:00:01"
      ∧ (t1 Env.utc).name = "Task1"
      ∧ (t1 Env.utc).action = "Run antivirus"
      ∧ (t1 Env.utc).period = 604800
      ∧ (Tools.time_point_to_string Env.utc (t1 Env.utc).next_run).data.take 19
          = "12/01/2020 06:00:01".data :=
  ⟨by decide, first_example_fields Env.utc "Task1" "Run antivirus" "12/01/2020 06:00:01"
    (by decide) (by decide) (by decide) (by decide) (by decide)⟩

/-- C12 as stated fails. At the witness of the claim, `12/01/2019 06:00:01`, the text of
`next_run` has 20 characters, the timestamp followed by a NUL, so it is not the timestamp. For
the valid timestamp `31/12/1600 23:59:59` the instant does not fit the tick count and not even
the first 19 characters are those of the timestamp. -/
theorem second_example_counterexample :
    (validTimestamp "12/01/2019 06:00:01"
      ∧ Tools.time_point_to_string Env.utc
          (secondExample Env.utc "12/01/2019 06:00:01").next_run ≠ "12/01/2019 06:00:01")
    ∧ (validTimestamp "31/12/1600 23:59:59"
      ∧ (Tools.time_point_to_string Env.utc
          (secondExample Env.utc "31/12/1600 23:59:59").next_run).data.take 19
        ≠ "31/12/1600 23:59:59".data) := by
  decide

/-- C12, amended: for every valid timestamp `s` whose year is 1678 to 2261, under one fixed
local zone (offset at most a week), the Task built by
`Task::create().runs().once().begins().on(s)` has empty name and action, period 0, and the
first 19 characters of the text of its `next_run` are exactly `s`. -/
theorem second_example_fields (env : Env) (s : String) (hs : validTimestamp s)
    (hy1 : 1678 ≤ timestampYear s) (hy2 : timestampYear s ≤ 2261) (hz1 : -604800 ≤ env.tz)
    (hz2 : env.tz ≤ 604800) :
    (secondExample env s).name = ""
      ∧ (secondExample env s).action = ""
      ∧ (secondExample env s).period = 0
      ∧ (Tools.time_point_to_string env (secondExample env s).next_run).data.take 19
          = s.data :=
  ⟨rfl, rfl, rfl, roundtrip_take env s hs hy1 hy2 hz1 hz2⟩

/-- Witness for C12: the second example of `main`, in the zone five hours west of UTC. -/
theorem second_example_fields_witness :
    validTimestamp "12/01/2019 06:00:01"
      ∧ (t2 ⟨-18000, ⟨0, 0, 0, 0, 0, 0⟩⟩).name = ""
      ∧ (t2 ⟨-18000, ⟨0, 0, 0, 0, 0, 0⟩⟩).action = ""
      ∧ (t2 ⟨-18000, ⟨0, 0, 0, 0, 0, 0⟩⟩).period = 0
      ∧ (Tools.time_point_to_string ⟨-18000, ⟨0, 0, 0, 0, 0, 0⟩⟩
          (t2 ⟨-18000, ⟨0, 0, 0, 0, 0, 0⟩⟩).next_run).data.take 19
          = "12/01/2019 06:00:01".data :=
  ⟨by decide, second_example_fields ⟨-18000, ⟨0, 0, 0, 0, 0, 0⟩⟩ "12/01/2019 06:00:01"
    (by decide) (by decide) (by decide) (by decide) (by decide)⟩

/-- The text of an instant within the tick range is its first 19 characters, a valid
timestamp, followed by one NUL character. -/
theorem time_point_to_string_split (env : Env) (tp : TimePoint) (h1 : TICKS_MIN ≤ tp)
    (h2 : tp ≤ TICKS_MAX) (hz1 : -604800 ≤ env.tz) (hz2 : env.tz ≤ 604800) :
    Tools.time_point_to_string env tp
        = String.mk ((Tools.time_point_to_string env tp).data.take 19) ++ "\x00"
      ∧ validTimestamp (String.mk ((Tools.time_point_to_string env tp).data.take 19)) := by
  obtain ⟨v, hv, hy1, hy2, hd⟩ := time_point_to_string_data env tp h1 h2 hz1 hz2
  have e1 : (Tools.time_point_to_string env tp).data.take 19 = renderFields v := by
    rw [hd]
    rfl
  rw [e1]
  refine ⟨?_, validTimestamp_render v hv (by omega) (by omega)⟩
  apply String.ext
  rw [hd]
  rfl

/-- C16: for every Task whose instants are within the tick range (zone offset at most a week)
`operator<<` writes the labelled fields in order, but each of the two instants is written as
20 characters, its `DD/MM/YYYY HH:MM:SS` text followed by a NUL character. -/
theorem printTask_text (env : Env) (task : Task) (hl1 : TICKS_MIN ≤ task.last_run)
    (hl2 : task.last_run ≤ TICKS_MAX) (hn1 : TICKS_MIN ≤ task.next_run)
    (hn2 : task.next_run ≤ TICKS_MAX) (hz1 : -604800 ≤ env.tz) (hz2 : env.tz ≤ 604800) :
    printTask env task
        = "name: " ++ task.name ++ ", action: " ++ task.action ++ ", period: "
          ++ String.mk (showLongDouble task.period) ++ " seconds, last_run: "
          ++ String.mk ((Tools.time_point_to_string env task.last_run).data.take 19)
          ++ "\x00, next_run: "
          ++ String.mk ((Tools.time_point_to_string env task.next_run).data.take 19)
          ++ "\x00"
      ∧ validTimestamp (String.mk ((Tools.time_point_to_string env task.last_run).data.take 19))
      ∧ validTimestamp
          (String.mk ((Tools.time_point_to_string env task.next_run).data.take 19)) := by
  obtain ⟨a1, a2⟩ := time_point_to_string_split env task.last_run hl1 hl2 hz1 hz2
  obtain ⟨b1, b2⟩ := time_point_to_string_split env task.next_run hn1 hn2 hz1 hz2
  refine ⟨?_, a2, b2⟩
  unfold printTask
  generalize String.mk ((Tools.time_point_to_string env task.last_run).data.take 19) = x at a1
  generalize String.mk ((Tools.time_point_to_string env task.next_run).data.take 19) = y at b1
  rw [a1, b1]
  apply String.ext
  simp only [String.data_append, List.append_assoc]
  rfl

/-- Witness for C16: the first example of `main`, in the UTC zone. The period part reads
`period: 604800 seconds`; a NUL character follows each of the two timestamps. -/
theorem printTask_text_witness :
    printTask Env.utc (t1 Env.utc)
        = "name: Task1, action: Run antivirus, period: 604800 seconds, last_run: 01/01/1970 00:00:00\x00, next_run: 12/01/2020 06:00:01\x00"
      ∧ printTask Env.utc (t1 Env.utc)
        = "name: " ++ (t1 Env.utc).name ++ ", action: " ++ (t1 Env.utc).action ++ ", period: "
          ++ String.mk (showLongDouble (t1 Env.utc).period) ++ " seconds, last_run: "
          ++ String.mk ((Tools.time_point_to_string Env.utc (t1 Env.utc).last_run).data.take 19)
          ++ "\x00, next_run: "
          ++ String.mk ((Tools.time_point_to_string Env.utc (t1 Env.utc).next_run).data.take 19)
          ++ "\x00"
      ∧ validTimestamp
          (String.mk ((Tools.time_point_to_string Env.utc (t1 Env.utc).last_run).data.take 19))
      ∧ validTimestamp
          (String.mk ((Tools.time_point_to_string Env.utc (t1 Env.utc).next_run).data.take 19)) := by
  have hp : (t1 Env.utc).period = 604800 := by
    show (60 * 60 * 24 * 7 : ℚ) = 604800
    norm_num
  refine ⟨?_, printTask_text Env.utc (t1 Env.utc) (by decide) (by decide) (by decide)
    (by decide) (by decide) (by decide)⟩
  unfold printTask
  rw [hp]
  decide

/-! ## Invariants and frame properties of the builder -/

/-- C13 as stated fails: the chain `Task::create().runs().every(-1)` compiles and its Task has
period -1, which is negative. -/
theorem period_nonneg_counterexample :
    chainReturns Handle.taskBuilder [Call.runs, Call.every (-1)] ≠ none
      ∧ (build Env.utc [Call.runs, Call.every (-1)]).period = -1
      ∧ ¬ 0 ≤ (build Env.utc [Call.runs, Call.every (-1)]).period := by
  refine ⟨by decide, rfl, ?_⟩
  show ¬ (0 : ℚ) ≤ -1
  norm_num

/-- A call keeps the period non-negative, unless it is `every(n)` with a negative `n`. -/
theorem Call.apply_period_nonneg (env : Env) (c : Call) (task : Task)
    (hn : ∀ n, c = Call.every n → 0 ≤ n) (h : 0 ≤ task.period) :
    0 ≤ (c.apply env task).period := by
  cases c <;>
    simp only [Call.apply, TaskBuilderBase.with_, TaskBuilderBase.doing, TaskBuilderBase.runs,
      TaskBuilderBase.begins, TaskWithBuilder.name, TaskDoingBuilder.action,
      TaskBeginsBuilder.on, TaskRunsBuilder.once, TaskRunsBuilder.every,
      TaskRunsBuilder.second, TaskRunsBuilder.seconds, TaskRunsBuilder.minute,
      TaskRunsBuilder.minutes, TaskRunsBuilder.hour, TaskRunsBuilder.hours,
      TaskRunsBuilder.day, TaskRunsBuilder.days, TaskRunsBuilder.week, TaskRunsBuilder.weeks,
      TaskRunsBuilder.month, TaskRunsBuilder.months, TaskRunsBuilder.year,
      TaskRunsBuilder.years] <;>
    first
      | exact h
      | exact hn _ rfl
      | exact mul_nonneg h (by norm_num)
      | norm_num

/-- A chain keeps the period non-negative when no `every(n)` in it has a negative `n`. -/
theorem runChain_period_nonneg (env : Env) (calls : List Call) (task : Task)
    (hn : ∀ n, Call.every n ∈ calls → 0 ≤ n) (h : 0 ≤ task.period) :
    0 ≤ (runChain env calls task).period := by
  induction calls generalizing task with
  | nil => exact h
  | cons c cs ih =>
    rw [runChain]
    exact ih _ (fun n hm => hn n (List.mem_cons_of_mem _ hm))
      (Call.apply_period_nonneg env c task (fun n e => hn n (e ▸ List.mem_cons_self _ _)) h)

/-- C13, amended: every Task reachable from `Task::create()` by a sequence of builder calls in
which every argument `n` of an `every(n)` call is non-negative has period ≥ 0. -/
theorem period_nonneg (env : Env) (calls : List Call)
    (hn : ∀ n, Call.every n ∈ calls → 0 ≤ n) : 0 ≤ (build env calls).period :=
  runChain_period_nonneg env calls Task.create hn (le_refl _)

/-- Witness for C13: the chain `runs().every(2).weeks().months()`. -/
theorem period_nonneg_witness :
    (∀ n, Call.every n ∈ [Call.runs, Call.every 2, Call.weeks, Call.months] → 0 ≤ n)
      ∧ 0 ≤ (build Env.utc [Call.runs, Call.every 2, Call.weeks, Call.months]).period :=
  ⟨by intro n hn; simp at hn; subst hn; norm_num,
    period_nonneg Env.utc [Call.runs, Call.every 2, Call.weeks, Call.months]
      (by intro n hn; simp at hn; subst hn; norm_num)⟩

/-- C14: no setter validates or fails (each is a total function): for every `n`, negative `n`
included, `every(n)` sets the period to exactly `n` seconds, also at the end of a chain, and
`name("")` and `action("")` store the empty text. -/
theorem setters_accept_everything (n : Seconds) (task : Task) (env : Env) (calls : List Call) :
    (every n (runs task)).period = n
      ∧ (every (-n) (runs task)).period = -n
      ∧ (runChain env (calls ++ [Call.runs, Call.every n]) task).period = n
      ∧ (TaskWithBuilder.name "" (with_ task)).name = ""
      ∧ (TaskDoingBuilder.action "" (doing task)).action = "" := by
  refine ⟨rfl, rfl, ?_, rfl, rfl⟩
  induction calls generalizing task with
  | nil => rfl
  | cons c cs ih => exact ih _

/-- C15: on every in-progress Task, two setters declared in two different builder classes
(stages) have the same effect in either order, also with the stage selectors that a chain
needs in front of them. -/
theorem setters_of_different_stages_commute (env : Env) (task : Task) (c1 c2 : Call)
    (h1 h2 : Handle) (e1 : c1.declaredIn = some h1) (e2 : c2.declaredIn = some h2)
    (hne : h1 ≠ h2) :
    c2.apply env (c1.apply env task) = c1.apply env (c2.apply env task)
      ∧ ∀ s1 s2 : Call, s1.declaredIn = none → s2.declaredIn = none →
          runChain env [s1, c1, s2, c2] task = runChain env [s2, c2, s1, c1] task := by
  have hc : c2.apply env (c1.apply env task) = c1.apply env (c2.apply env task) := by
    cases c1 <;> cases c2 <;> simp only [Call.declaredIn] at e1 e2 <;>
      first
        | rfl
        | (exfalso; apply hne; rw [← Option.some.inj e1, ← Option.some.inj e2])
  refine ⟨hc, fun s1 s2 n1 n2 => ?_⟩
  have hs : ∀ (s : Call) (t : Task), s.declaredIn = none → s.apply env t = t := by
    intro s t hs
    cases s <;> first | rfl | exact absurd hs (by simp [Call.declaredIn])
  simp only [runChain, hs s1 _ n1, hs s2 _ n2, hc]

/-- Witness for C15: `name("Task1")` of the with-stage and `weeks()` of the runs-stage. -/
theorem setters_of_different_stages_commute_witness :
    Call.weeks.apply Env.utc ((Call.name "Task1").apply Env.utc Task.create)
        = (Call.name "Task1").apply Env.utc (Call.weeks.apply Env.utc Task.create)
      ∧ ∀ s1 s2 : Call, s1.declaredIn = none → s2.declaredIn = none →
          runChain Env.utc [s1, Call.name "Task1", s2, Call.weeks] Task.create
            = runChain Env.utc [s2, Call.weeks, s1, Call.name "Task1"] Task.create :=
  setters_of_different_stages_commute Env.utc Task.create (Call.name "Task1") Call.weeks
    Handle.taskWithBuilder Handle.taskRunsBuilder rfl rfl (by decide)

/-- C17: each setter changes only its own field. `name(x)` changes only `name`, `action(x)`
only `action`, `on(s)` only `next_run`, every runs-stage setter `c` only `period`; the stage
selectors `with()`, `doing()`, `runs()`, `begins()` change no field. -/
theorem setter_changes_own_field_only (env : Env) (task : Task) (x s : String) (c : Call)
    (hc : c.isRunsSetter = true) :
    ((TaskWithBuilder.name x task).name = x
        ∧ (TaskWithBuilder.name x task).action = task.action
        ∧ (TaskWithBuilder.name x task).period = task.period
        ∧ (TaskWithBuilder.name x task).last_run = task.last_run
        ∧ (TaskWithBuilder.name x task).next_run = task.next_run)
      ∧ ((TaskDoingBuilder.action x task).action = x
        ∧ (TaskDoingBuilder.action x task).name = task.name
        ∧ (TaskDoingBuilder.action x task).period = task.period
        ∧ (TaskDoingBuilder.action x task).last_run = task.last_run
        ∧ (TaskDoingBuilder.action x task).next_run = task.next_run)
      ∧ ((TaskBeginsBuilder.on env s task).next_run = Tools.string_to_time_point env s
        ∧ (TaskBeginsBuilder.on env s task).name = task.name
        ∧ (TaskBeginsBuilder.on env s task).action = task.action
        ∧ (TaskBeginsBuilder.on env s task).period = task.period
        ∧ (TaskBeginsBuilder.on env s task).last_run = task.last_run)
      ∧ ((c.apply env task).name = task.name
        ∧ (c.apply env task).action = task.action
        ∧ (c.apply env task).last_run = task.last_run
        ∧ (c.apply env task).next_run = task.next_run)
      ∧ (with_ task = task ∧ doing task = task ∧ runs task = task ∧ begins task = task) := by
  refine ⟨⟨rfl, rfl, rfl, rfl, rfl⟩, ⟨rfl, rfl, rfl, rfl, rfl⟩, ⟨rfl, rfl, rfl, rfl, rfl⟩, ?_,
    ⟨rfl, rfl, rfl, rfl⟩⟩
  cases c <;> first | exact ⟨rfl, rfl, rfl, rfl⟩ | exact absurd hc (by simp [Call.isRunsSetter])

/-- Witness for C17: the runs-stage setter `week()` on the Task of `Task::create()`, which
leaves name, action, `last_run` and `next_run` as they were. -/
theorem setter_changes_own_field_only_witness :
    Call.week.isRunsSetter = true
      ∧ ((Call.week.apply Env.utc Task.create).name = Task.create.name
        ∧ (Call.week.apply Env.utc Task.create).action = Task.create.action
        ∧ (Call.week.apply Env.utc Task.create).last_run = Task.create.last_run
        ∧ (Call.week.apply Env.utc Task.create).next_run = Task.create.next_run) :=
  ⟨rfl, (setter_changes_own_field_only Env.utc Task.create "Task1" "12/01/2020 06:00:01"
    Call.week rfl).2.2.2.1⟩

/-- C18: the builder never writes `last_run`: every Task reachable from `Task::create()` by
any sequence of builder calls has `last_run` at the epoch instant. -/
theorem last_run_stays_epoch (env : Env) (calls : List Call) :
    (build env calls).last_run = epoch :=
  runChain_last_run env calls Task.create

end TaskBuilder
